import Mathlib

/-!
Verification of the CPHS chess-club backend against its specification.

The repository contains two server variants: `src/server.js` (PostgreSQL,
modelled in namespace `Pg`) and `src/unnamed/part_001` (MySQL, modelled in
namespace `My`).  Pure helpers shared by both embeddings come first.
-/

/-- Strict lexicographic order on lists of naturals (models byte-wise string
collation used by SQL `ORDER BY name`). -/
def lexLt : List Nat → List Nat → Bool
  | _, [] => false
  | [], _ :: _ => true
  | a :: as, b :: bs => if a < b then true else if b < a then false else lexLt as bs

/-- Reflexive lexicographic order on lists of naturals. -/
def lexLe : List Nat → List Nat → Bool
  | [], _ => true
  | _ :: _, [] => false
  | a :: as, b :: bs => if a < b then true else if b < a then false else lexLe as bs

/-- Key of a string for collation purposes. -/
def strKey (s : String) : List Nat := s.toList.map Char.toNat

/-- String strict order used to model SQL `ORDER BY name ASC` ties. -/
def nameLt (a b : String) : Bool := lexLt (strKey a) (strKey b)

/-- String reflexive order used to model SQL `ORDER BY name ASC`. -/
def nameLe (a b : String) : Bool := lexLe (strKey a) (strKey b)

/-- Insert an element into a list assumed ordered by `le` (helper of `orderBy`). -/
def insertBy (le : α → α → Bool) (a : α) : List α → List α
  | [] => [a]
  | b :: t => if le a b then a :: b :: t else b :: insertBy le a t

/-- Insertion sort modelling a SQL `ORDER BY` clause with comparator `le`. -/
def orderBy (le : α → α → Bool) : List α → List α
  | [] => []
  | a :: t => insertBy le a (orderBy le t)

/-- JavaScript truthiness of an optional string (`undefined` and `""` are falsy). -/
def truthyS : Option String → Bool
  | none => false
  | some s => s ≠ ""

/-- JavaScript truthiness of an optional integer (`undefined` and `0` are falsy). -/
def truthyN : Option Nat → Bool
  | none => false
  | some n => n ≠ 0

/-- Value of a list of decimal digit characters, accumulating left to right. -/
def decDigitsVal : Nat → List Char → Nat
  | acc, [] => acc
  | acc, c :: cs => decDigitsVal (acc * 10 + (c.toNat - '0'.toNat)) cs

/-- Value of a list of hexadecimal digit characters. -/
def hexDigitVal (c : Char) : Nat :=
  if '0' ≤ c ∧ c ≤ '9' then c.toNat - '0'.toNat
  else if 'a' ≤ c ∧ c ≤ 'f' then c.toNat - 'a'.toNat + 10
  else c.toNat - 'A'.toNat + 10

/-- Accumulate hexadecimal digit characters. -/
def hexDigitsVal : Nat → List Char → Nat
  | acc, [] => acc
  | acc, c :: cs => hexDigitsVal (acc * 16 + hexDigitVal c) cs

/-- Is `c` a hexadecimal digit? -/
def isHexDigit (c : Char) : Bool :=
  ('0' ≤ c && c ≤ '9') || ('a' ≤ c && c ≤ 'f') || ('A' ≤ c && c ≤ 'F')

/-- JavaScript `parseInt` on a character list after whitespace stripping and
sign handling: leading decimal digits, or a `0x` hexadecimal prefix; `none`
models `NaN`. -/
def parseIntCore (cs : List Char) : Option Nat :=
  match cs with
  | '0' :: 'x' :: rest =>
    let ds := rest.takeWhile isHexDigit
    if ds.isEmpty then none else some (hexDigitsVal 0 ds)
  | '0' :: 'X' :: rest =>
    let ds := rest.takeWhile isHexDigit
    if ds.isEmpty then none else some (hexDigitsVal 0 ds)
  | _ =>
    let ds := cs.takeWhile Char.isDigit
    if ds.isEmpty then none else some (decDigitsVal 0 ds)

/-- JavaScript `parseInt(s)`: skip leading whitespace, optional sign, then a
decimal (or `0x` hexadecimal) digit run; `none` models `NaN`. -/
def parseIntJs (s : String) : Option Int :=
  let cs := s.toList.dropWhile Char.isWhitespace
  match cs with
  | '-' :: rest => (parseIntCore rest).map (fun n => -(n : Int))
  | '+' :: rest => (parseIntCore rest).map (fun n => (n : Int))
  | _ => (parseIntCore cs).map (fun n => (n : Int))

/-- Win percentage in integer hundredths of a percent: the SQL expression
`CASE WHEN w + l = 0 THEN 0 ELSE ROUND(w / (w + l) * 100, 2) END`, whose value
is always an exact multiple of 0.01 and is here scaled by 100.  Rounding is
half away from zero on a nonnegative argument, i.e.
`floor(10000 * w / (w + l) + 1 / 2)`. -/
def winPctH (w l : Nat) : Nat :=
  if w + l = 0 then 0 else (20000 * w + (w + l)) / (2 * (w + l))

/-- JavaScript `String.prototype.trim`: strip leading and trailing
whitespace (modelled over the character list so that it computes by
reduction). -/
def jsTrim (s : String) : String :=
  String.mk (((s.toList.dropWhile Char.isWhitespace).reverse.dropWhile
    Char.isWhitespace).reverse)

/-- Outcome of one HTTP handler call: success, or an error response carrying
the HTTP status and the `error` message string. -/
inductive Api where
  | ok : Api
  | err : Nat → String → Api
deriving DecidableEq, Repr

namespace Pg

/-- A row of the PostgreSQL `players` table of `src/server.js`
(`player_id`, `name`, `points`, `tier`). -/
structure Player where
  player_id : Nat
  name : String
  points : Int
  tier : String
deriving DecidableEq, Repr

/-- A row of the `matches` table: immutable ledger entry of one game. -/
structure MatchRow where
  winner_id : Nat
  loser_id : Nat
  winner_tier_before : String
  loser_tier_before : String
  winner_points_change : Int
  loser_points_change : Int
  match_date : Nat
deriving DecidableEq, Repr

/-- A row of the `monthly_archives` table. -/
structure ArchiveRow where
  archive_id : Nat
  archive_month : String
  first_place_player_id : Nat
  first_place_points : Int
  second_place_player_id : Nat
  second_place_points : Int
  third_place_player_id : Nat
  third_place_points : Int
deriving DecidableEq, Repr

/-- The PostgreSQL database state visible to `src/server.js`:
`players`, `matches`, `monthly_archives` and the player ids present in
`tournament_winners`. -/
structure Store where
  players : List Player
  «matches» : List MatchRow
  archives : List ArchiveRow
  tournament_winners : List Nat
deriving DecidableEq, Repr

/-- Win count of a player: the `wins` subquery of `GET /api/leaderboard`
(`SELECT winner_id, COUNT(*) FROM matches GROUP BY winner_id`, 0 when absent). -/
def winsOf (s : Store) (pid : Nat) : Nat :=
  (s.«matches».filter (fun m => m.winner_id = pid)).length

/-- Loss count of a player: the `losses` subquery of `GET /api/leaderboard`. -/
def lossesOf (s : Store) (pid : Nat) : Nat :=
  (s.«matches».filter (fun m => m.loser_id = pid)).length

/-- The `champions` join of the leaderboard queries: a player is a champion
exactly when some `monthly_archives` row names it in one of the three
placement columns. -/
def isChampion (s : Store) (pid : Nat) : Bool :=
  s.archives.any (fun a =>
    a.first_place_player_id = pid ∨ a.second_place_player_id = pid ∨
      a.third_place_player_id = pid)

/-- The `tournament_winners` join: present iff some badge row names the player. -/
def isTw (s : Store) (pid : Nat) : Bool :=
  s.tournament_winners.any (fun t => t = pid)

/-- Comparator of `GET /api/leaderboard`:
`ORDER BY p.points DESC, COALESCE(wins.win_count, 0) DESC, p.name ASC` —
`p` sorts no later than `q` when it has more points, or equal points and
more wins, or equal points and wins and a name no greater. -/
def lbLe (s : Store) (p q : Player) : Bool :=
  (q.points < p.points) ||
    (p.points = q.points &&
      ((winsOf s q.player_id < winsOf s p.player_id) ||
        (winsOf s p.player_id = winsOf s q.player_id && nameLe p.name q.name)))

/-- Comparator of `GET /api/leaderboard/top3`:
`ORDER BY p.points DESC, p.name ASC` (note: no wins key). -/
def top3Le (p q : Player) : Bool :=
  (q.points < p.points) || (p.points = q.points && nameLe p.name q.name)

/-- One row of the `GET /api/leaderboard` projection.  `win_percentage` is in
integer hundredths of a percent (the SQL value rounded to 2 decimals, scaled
by 100). -/
structure LbRow where
  id : Nat
  name : String
  points : Int
  tier : String
  wins : Nat
  losses : Nat
  win_percentage : Nat
  is_champion : Bool
  is_tournament_winner : Bool
  rank : Nat
deriving DecidableEq, Repr

/-- Build the leaderboard row of player `p` at 0-based position `i`. -/
def mkLbRow (s : Store) (i : Nat) (p : Player) : LbRow :=
  { id := p.player_id
    name := p.name
    points := p.points
    tier := p.tier
    wins := winsOf s p.player_id
    losses := lossesOf s p.player_id
    win_percentage := winPctH (winsOf s p.player_id) (lossesOf s p.player_id)
    is_champion := isChampion s p.player_id
    is_tournament_winner := isTw s p.player_id
    rank := i + 1 }

/-- `GET /api/leaderboard`: every player (the query has no activity filter),
sorted by `(points DESC, wins DESC, name ASC)`, with `ROW_NUMBER` ranks. -/
def leaderboard (s : Store) : List LbRow :=
  ((orderBy (lbLe s) s.players).enum).map (fun ip => mkLbRow s ip.1 ip.2)

/-- One row of the `GET /api/leaderboard/top3` projection. -/
structure T3Row where
  id : Nat
  name : String
  points : Int
  tier : String
  is_champion : Bool
  is_tournament_winner : Bool
  rank : Nat
deriving DecidableEq, Repr

/-- Build the podium row of player `p` at 0-based position `i`. -/
def mkT3Row (s : Store) (i : Nat) (p : Player) : T3Row :=
  { id := p.player_id
    name := p.name
    points := p.points
    tier := p.tier
    is_champion := isChampion s p.player_id
    is_tournament_winner := isTw s p.player_id
    rank := i + 1 }

/-- `GET /api/leaderboard/top3`: players sorted by `(points DESC, name ASC)`,
limited to the first 3. -/
def top3 (s : Store) : List T3Row :=
  (((orderBy top3Le s.players).enum).map (fun ip => mkT3Row s ip.1 ip.2)).take 3

/-- Next free player id (the `SERIAL` primary key of `players`). -/
def freshPlayerId (s : Store) : Nat :=
  s.players.foldr (fun p m => max p.player_id m) 0 + 1

/-- Modelled from the spec: the unique constraint on `players.name` lives in
the database schema, which is not under `src/`; the spec requires the display
name to be unique, and `POST /api/admin/players` maps its violation (`23505`)
to a conflict response. -/
def nameTaken (s : Store) (nm : String) : Bool :=
  s.players.any (fun p => p.name = nm)

/-- `POST /api/admin/players`: validates the name (required, non-empty after
trimming) and the points range `[0, 49]` (default 0 when omitted), then
inserts; a duplicate name is mapped to a conflict error.  `tierFn` stands for
the tier derivation the database performs from points. -/
def createPlayer (tierFn : Int → String) (s : Store)
    (pname : Option String) (points : Option Int) : Store × Api :=
  let pts := points.getD 0
  if pname = none ∨ jsTrim (pname.getD "") = "" then
    (s, .err 400 "Player name is required")
  else if pts < 0 ∨ 49 < pts then
    (s, .err 400 "Points must be between 0 and 49")
  else
    let nm := jsTrim (pname.getD "")
    if nameTaken s nm then (s, .err 400 "Player name already exists")
    else
      ({ s with players := s.players ++ [⟨freshPlayerId s, nm, pts, tierFn pts⟩] }, .ok)

/-- `DELETE /api/admin/players/:id` of `src/server.js`: parses the id, then
issues `DELETE FROM players WHERE player_id = $1 RETURNING name` — a physical
row deletion (this variant has no activity flag at all). -/
def removePlayer (s : Store) (idStr : String) : Store × Api :=
  match parseIntJs idStr with
  | none => (s, .err 400 "Invalid player ID")
  | some pid =>
    if s.players.any (fun p => (p.player_id : Int) = pid) then
      ({ s with players := s.players.filter (fun p => ¬((p.player_id : Int) = pid)) }, .ok)
    else (s, .err 404 "Player not found")

/-- Modelled from the spec: the `record_match_result` stored function is
database code not under `src/`.  Per the spec it resolves both names, applies
the recommended fixed ±1 point exchange clamped to `[0, 49]`, re-derives both
tiers from the new points, and appends one immutable match row capturing the
tiers before the match; an unresolvable name yields an `Error:` message. -/
def record_match_result (tierFn : Int → String) (s : Store) (fw fl : String) :
    Store × Api :=
  match s.players.find? (fun p => p.name = fw), s.players.find? (fun p => p.name = fl) with
  | some wp, some lp =>
    let wpts := min 49 (wp.points + 1)
    let lpts := max 0 (lp.points - 1)
    let updated := s.players.map (fun p =>
      if p.player_id = wp.player_id then { p with points := wpts, tier := tierFn wpts }
      else if p.player_id = lp.player_id then { p with points := lpts, tier := tierFn lpts }
      else p)
    let row : MatchRow :=
      ⟨wp.player_id, lp.player_id, wp.tier, lp.tier,
        wpts - wp.points, lpts - lp.points, s.«matches».length⟩
    ({ s with players := updated, «matches» := s.«matches» ++ [row] }, .ok)
  | _, _ => (s, .err 400 "Error: one or both players not found")

/-- Shared tail of `POST /api/admin/matches` once winner and loser names are
determined: the same-player guard, then the stored function call. -/
def recordNames (tierFn : Int → String) (s : Store) (fw fl : String) : Store × Api :=
  if fw = fl then (s, .err 400 "Winner and loser cannot be the same player")
  else record_match_result tierFn s fw fl

/-- `POST /api/admin/matches`: accepts either a name pair or an id pair (ids
are first resolved to names), guards against winner = loser, then delegates
to the stored function. -/
def recordMatch (tierFn : Int → String) (s : Store)
    (winnerId loserId : Option Nat) (winnerName loserName : Option String) :
    Store × Api :=
  if truthyS winnerName && truthyS loserName then
    recordNames tierFn s (winnerName.getD "") (loserName.getD "")
  else if truthyN winnerId && truthyN loserId then
    match s.players.find? (fun p => p.player_id = winnerId.getD 0),
        s.players.find? (fun p => p.player_id = loserId.getD 0) with
    | some wp, some lp => recordNames tierFn s wp.name lp.name
    | _, _ => (s, .err 400 "One or both players not found")
  else (s, .err 400 "Either winner/loser names or IDs are required")

/-- End-to-end resolution of the two participants of a record-match request,
mirroring the branch structure of `recordMatch`: in the name branch each name
is looked up directly; in the id branch each id is looked up. -/
def resolvePair (s : Store) (winnerId loserId : Option Nat)
    (winnerName loserName : Option String) : Option Player × Option Player :=
  if truthyS winnerName && truthyS loserName then
    (s.players.find? (fun p => p.name = winnerName.getD ""),
     s.players.find? (fun p => p.name = loserName.getD ""))
  else if truthyN winnerId && truthyN loserId then
    (s.players.find? (fun p => p.player_id = winnerId.getD 0),
     s.players.find? (fun p => p.player_id = loserId.getD 0))
  else (none, none)

/-- Next free archive id (the `SERIAL` primary key of `monthly_archives`). -/
def freshArchiveId (s : Store) : Nat :=
  s.archives.foldr (fun a m => max a.archive_id m) 0 + 1

/-- Modelled from the spec: the unique constraint on
`monthly_archives.archive_month` lives in the database schema, not under
`src/`; the spec allows at most one archive per month and
`POST /api/admin/archives` maps its violation (`23505`) to an
"already exists" error. -/
def monthTaken (s : Store) (m : String) : Bool :=
  s.archives.any (fun a => a.archive_month = m)

/-- `POST /api/admin/archives`: requires all four fields (JavaScript
truthiness, so id 0 also fails), rejects duplicate placement ids
(`new Set(winners).size !== winners.length`), loads the three players with
`WHERE player_id = ANY($1)` and requires exactly 3 rows, then inserts one
archive row capturing each player's current points; a duplicate month is
mapped to an "already exists" error. -/
def createArchive (s : Store) (month : Option String)
    (firstPlaceId secondPlaceId thirdPlaceId : Option Nat) : Store × Api :=
  if ¬(truthyS month && truthyN firstPlaceId && truthyN secondPlaceId &&
      truthyN thirdPlaceId) then
    (s, .err 400 "All fields are required")
  else
    let m := month.getD ""
    let fi := firstPlaceId.getD 0
    let si := secondPlaceId.getD 0
    let ti := thirdPlaceId.getD 0
    if fi = si ∨ fi = ti ∨ si = ti then
      (s, .err 400 "All three winners must be different players")
    else
      let rows := s.players.filter (fun p =>
        p.player_id = fi ∨ p.player_id = si ∨ p.player_id = ti)
      if rows.length ≠ 3 then (s, .err 400 "One or more players not found")
      else
        match rows.find? (fun p => p.player_id = fi),
            rows.find? (fun p => p.player_id = si),
            rows.find? (fun p => p.player_id = ti) with
        | some pf, some ps, some pt =>
          if monthTaken s m then (s, .err 400 "Archive for this month already exists")
          else
            ({ s with archives := s.archives ++
                [⟨freshArchiveId s, m, fi, pf.points, si, ps.points, ti, pt.points⟩] },
             .ok)
        | _, _, _ => (s, .err 500 "Failed to create archive")

/-- `DELETE /api/admin/archives/:id`: parses the id and deletes the matching
`monthly_archives` row; nothing else is touched. -/
def deleteArchive (s : Store) (idStr : String) : Store × Api :=
  match parseIntJs idStr with
  | none => (s, .err 400 "Invalid archive ID")
  | some aid =>
    if s.archives.any (fun a => (a.archive_id : Int) = aid) then
      ({ s with archives := s.archives.filter (fun a => ¬((a.archive_id : Int) = aid)) },
       .ok)
    else (s, .err 404 "Archive not found")

/-- The effective `LIMIT` of `GET /api/matches/recent`:
`parseInt(req.query.limit) || 10` (NaN and 0 are falsy). -/
def recentLimit (q : Option String) : Int :=
  match q with
  | none => 10
  | some str =>
    match parseIntJs str with
    | none => 10
    | some n => if n = 0 then 10 else n

/-- `GET /api/matches/recent`: matches by descending date limited to
`recentLimit`; a negative limit makes the SQL `LIMIT` fail, modelled as
`none`. -/
def recentMatches (s : Store) (q : Option String) : Option (List MatchRow) :=
  let l := recentLimit q
  if l < 0 then none
  else some ((orderBy (fun a b => b.match_date ≤ a.match_date) s.«matches»).take l.toNat)

end Pg

namespace My

/-- A row of the MySQL `players` table of `src/unnamed/part_001`: this schema
stores the win/loss counters and the `is_active`, `is_champion` and
`is_tournament_winner` flags directly on the player. -/
structure Player where
  id : Nat
  name : String
  points : Int
  tier : String
  wins : Nat
  losses : Nat
  is_active : Bool
  is_champion : Bool
  is_tournament_winner : Bool
deriving DecidableEq, Repr

/-- A row of the MySQL `matches` table. -/
structure MatchRow where
  winner_id : Nat
  loser_id : Nat
  winner_tier_before : String
  loser_tier_before : String
  points_exchanged : Int
  match_date : Nat
deriving DecidableEq, Repr

/-- A row of the MySQL `monthly_archives` table. -/
structure ArchiveRow where
  id : Nat
  archive_month : String
  first_place_player_id : Nat
  first_place_points : Int
  second_place_player_id : Nat
  second_place_points : Int
  third_place_player_id : Nat
  third_place_points : Int
  total_players : Nat
  total_matches : Nat
deriving DecidableEq, Repr

/-- The MySQL database state visible to `src/unnamed/part_001`. -/
structure Store where
  players : List Player
  «matches» : List MatchRow
  archives : List ArchiveRow
deriving DecidableEq, Repr

/-- Comparator of this variant's `GET /api/leaderboard`:
`ORDER BY points DESC, wins DESC, win_percentage DESC` — the final key is the
win percentage, not the name. -/
def myLe (p q : Player) : Bool :=
  (q.points < p.points) ||
    (p.points = q.points &&
      ((q.wins < p.wins) ||
        (p.wins = q.wins &&
          (winPctH q.wins q.losses ≤ winPctH p.wins p.losses))))

/-- One row of this variant's `GET /api/leaderboard` projection. -/
structure LbRow where
  id : Nat
  name : String
  points : Int
  tier : String
  wins : Nat
  losses : Nat
  win_percentage : Nat
  is_champion : Bool
  is_tournament_winner : Bool
  rank : Nat
deriving DecidableEq, Repr

/-- Build the leaderboard row of player `p` at 0-based position `i`. -/
def mkLbRow (i : Nat) (p : Player) : LbRow :=
  { id := p.id
    name := p.name
    points := p.points
    tier := p.tier
    wins := p.wins
    losses := p.losses
    win_percentage := winPctH p.wins p.losses
    is_champion := p.is_champion
    is_tournament_winner := p.is_tournament_winner
    rank := i + 1 }

/-- This variant's `GET /api/leaderboard`: active players only, sorted by
`(points DESC, wins DESC, win_percentage DESC)`. -/
def leaderboard (s : Store) : List LbRow :=
  ((orderBy myLe (s.players.filter (fun p => p.is_active))).enum).map
    (fun ip => mkLbRow ip.1 ip.2)

/-- Effect of `UPDATE players SET is_active = FALSE WHERE id = ?` on one row. -/
def deactivate (pid : Nat) (p : Player) : Player :=
  if p.id = pid then { p with is_active := false } else p

/-- This variant's `DELETE /api/admin/players/:id`: a soft delete,
`UPDATE players SET is_active = FALSE WHERE id = ?`; 404 when no row matches. -/
def removePlayer (s : Store) (pid : Nat) : Store × Api :=
  if s.players.any (fun p => p.id = pid) then
    ({ s with players := s.players.map (deactivate pid) }, .ok)
  else (s, .err 404 "Player not found")

/-- Result of a modelled MySQL stored procedure call: a new store, a
duplicate-key error, or a generic failure. -/
inductive ProcResult where
  | ok : Store → ProcResult
  | dupEntry : ProcResult
  | failed : ProcResult
deriving Repr

/-- Next free player id of this variant. -/
def freshId (s : Store) : Nat :=
  s.players.foldr (fun p m => max p.id m) 0 + 1

/-- Modelled from the spec: the `AddPlayer` stored procedure is database code
not under `src/`.  Per the spec, player creation requires a name that is
non-empty after trimming and unique among active players, and initial points
within `[0, 49]`; on success it inserts one active player row with the tier
derived from the points. -/
def AddPlayer (tierFn : Int → String) (s : Store) (nm : String) (pts : Int) :
    ProcResult :=
  if jsTrim nm = "" then .failed
  else if pts < 0 ∨ 49 < pts then .failed
  else if s.players.any (fun p => p.is_active && p.name = jsTrim nm) then .dupEntry
  else .ok { s with players := s.players ++
      [⟨freshId s, jsTrim nm, pts, tierFn pts, 0, 0, true, false, false⟩] }

/-- This variant's `POST /api/admin/players`: only checks that the name is
truthy, then delegates to the `AddPlayer` procedure; `ER_DUP_ENTRY` maps to a
400 conflict, any other procedure failure to a 500. -/
def createPlayer (tierFn : Int → String) (s : Store)
    (pname : Option String) (points : Option Int) : Store × Api :=
  if ¬ truthyS pname then (s, .err 400 "Player name is required")
  else
    match AddPlayer tierFn s (pname.getD "") (points.getD 0) with
    | .ok s1 => (s1, .ok)
    | .dupEntry => (s, .err 400 "Player name already exists")
    | .failed => (s, .err 500 "Failed to add player")

/-- Modelled from the spec: the `RecordMatch` stored procedure is database
code not under `src/`.  Per the spec it requires both ids to resolve to
existing active players, transfers the point exchange clamped to `[0, 49]`,
re-derives the tiers, and appends one match row; otherwise it fails. -/
def RecordMatch (tierFn : Int → String) (s : Store) (wid lid : Nat)
    (delta : Int) : ProcResult :=
  match s.players.find? (fun p => p.is_active && p.id = wid),
      s.players.find? (fun p => p.is_active && p.id = lid) with
  | some wp, some lp =>
    let wpts := min 49 (wp.points + delta)
    let lpts := max 0 (lp.points - delta)
    let updated := s.players.map (fun p =>
      if p.id = wid then
        { p with points := wpts, tier := tierFn wpts, wins := p.wins + 1 }
      else if p.id = lid then
        { p with points := lpts, tier := tierFn lpts, losses := p.losses + 1 }
      else p)
    let row : MatchRow := ⟨wid, lid, wp.tier, lp.tier, delta, s.«matches».length⟩
    .ok { s with players := updated, «matches» := s.«matches» ++ [row] }
  | _, _ => .failed

/-- This variant's `POST /api/admin/matches`: requires truthy winner and
loser ids, rejects `winnerId === loserId`, then calls the `RecordMatch`
procedure. -/
def recordMatch (tierFn : Int → String) (s : Store)
    (winnerId loserId : Option Nat) (pointsExchanged : Option Int) : Store × Api :=
  if ¬ (truthyN winnerId && truthyN loserId) then
    (s, .err 400 "Winner and loser IDs are required")
  else if winnerId.getD 0 = loserId.getD 0 then
    (s, .err 400 "Winner and loser cannot be the same player")
  else
    match RecordMatch tierFn s (winnerId.getD 0) (loserId.getD 0)
        (pointsExchanged.getD 1) with
    | .ok s1 => (s1, .ok)
    | _ => (s, .err 500 "Failed to record match")

/-- Modelled from the spec: the unique key on
`monthly_archives.archive_month` lives in the database schema, not under
`src/`; this variant maps its violation (`ER_DUP_ENTRY`) to an
"already exists" error. -/
def monthTaken (s : Store) (m : String) : Bool :=
  s.archives.any (fun a => a.archive_month = m)

/-- Next free archive id of this variant. -/
def freshArchiveId (s : Store) : Nat :=
  s.archives.foldr (fun a m => max a.id m) 0 + 1

/-- Effect of `UPDATE players SET is_champion = TRUE WHERE id IN (?, ?, ?)`
on one row. -/
def crown (f g t : Nat) (p : Player) : Player :=
  if p.id = f ∨ p.id = g ∨ p.id = t then { p with is_champion := true } else p

/-- Insert-and-crown tail of this variant's `POST /api/admin/archives`, once
the three placement rows `fp`, `sp` and `tp` have been found: the `INSERT`
(duplicate month mapped to an "already exists" error) followed by the
champion-flag `UPDATE`. -/
def createArchiveCore (s : Store) (month : String)
    (firstPlaceId secondPlaceId thirdPlaceId : Nat)
    (totalPlayers totalMatches : Option Nat) (fp sp tp : Player) : Store × Api :=
  if monthTaken s month then (s, .err 400 "Archive for this month already exists")
  else
    let row : ArchiveRow :=
      ⟨freshArchiveId s, month, firstPlaceId, fp.points, secondPlaceId, sp.points,
        thirdPlaceId, tp.points, totalPlayers.getD 0, totalMatches.getD 0⟩
    let s1 := { s with archives := s.archives ++ [row] }
    let updated := s1.players.map (crown firstPlaceId secondPlaceId thirdPlaceId)
    let s2 := { s1 with players := updated }
    (s2, .ok)

/-- This variant's `POST /api/admin/archives`: no field or distinctness
validation at all — it loads the rows matching `WHERE id IN (?, ?, ?)`,
reads each placement's points with `players.find(...)` (an unresolvable id
throws, caught as a 500), inserts the archive row, and then sets
`is_champion = TRUE` on the three placement ids. -/
def createArchive (s : Store) (month : String)
    (firstPlaceId secondPlaceId thirdPlaceId : Nat)
    (totalPlayers totalMatches : Option Nat) : Store × Api :=
  let rows := s.players.filter (fun p =>
    p.id = firstPlaceId ∨ p.id = secondPlaceId ∨ p.id = thirdPlaceId)
  match rows.find? (fun p => p.id = firstPlaceId),
      rows.find? (fun p => p.id = secondPlaceId),
      rows.find? (fun p => p.id = thirdPlaceId) with
  | some fp, some sp, some tp =>
    createArchiveCore s month firstPlaceId secondPlaceId thirdPlaceId
      totalPlayers totalMatches fp sp tp
  | _, _, _ => (s, .err 500 "Failed to create archive")

/-- This variant's `DELETE /api/admin/archives/:id`: deletes the matching
archive row only; player rows (and their stored `is_champion` flags) are not
touched. -/
def deleteArchive (s : Store) (aid : Nat) : Store × Api :=
  if s.archives.any (fun a => a.id = aid) then
    ({ s with archives := s.archives.filter (fun a => ¬(a.id = aid)) }, .ok)
  else (s, .err 404 "Archive not found")

end My

/-- A JSON value, as far as the response envelopes need. -/
inductive Json where
  | nul : Json
  | b : Bool → Json
  | s : String → Json
  | n : Int → Json
  | arr : List Json → Json
  | obj : List (String × Json) → Json

/-- Look a key up in a JSON object field list. -/
def jLookup (k : String) : List (String × Json) → Option Json
  | [] => none
  | (k1, v) :: t => if k1 = k then some v else jLookup k t

/-- Is an optional JSON value a string? -/
def isStr : Option Json → Bool
  | some (.s _) => true
  | _ => false

/-- The spec's envelope convention: the body is a JSON object with a boolean
`success` field, and when `success` is false it also carries a string `error`
field. -/
def envelopeOk : Json → Bool
  | .obj fields =>
    match jLookup "success" fields with
    | some (.b true) => true
    | some (.b false) => isStr (jLookup "error" fields)
    | _ => false
  | _ => false

/-- Optional `details` field of `src/server.js`'s `handleError` (present only
in development mode). -/
def errDetails (d : Option String) : List (String × Json) :=
  match d with
  | none => []
  | some v => [("details", .s v)]

/-- The body produced by `handleError` of `src/server.js`. -/
def handleErrorBody (m : String) (d : Option String) : Json :=
  .obj ([("success", .b false), ("error", .s m)] ++ errDetails d)

/-- Every response body `src/server.js` can produce, one entry per
`res.json(...)` site, with the dynamic parts abstracted: `tok` and `m` stand
for any token/message/timestamp string, `d` for the optional error details,
and `pay` for any payload value (player objects, row arrays, ...). -/
def pgResponses (tok m : String) (d : Option String) (pay : Json) : List Json :=
  [ .obj [("success", .b true), ("token", .s tok), ("message", .s "Authentication successful")],
    .obj [("success", .b false), ("error", .s "Invalid password")],
    handleErrorBody m d,
    .obj [("success", .b false), ("error", .s "No token provided")],
    .obj [("success", .b false), ("error", .s "Invalid token")],
    .obj [("success", .b true), ("players", pay)],
    .obj [("success", .b true), ("top3", pay)],
    .obj [("success", .b false), ("error", .s "Invalid player ID")],
    .obj [("success", .b false), ("error", .s "Player not found")],
    .obj [("success", .b true), ("player", pay), ("matchHistory", pay)],
    .obj [("success", .b false), ("error", .s "Player name is required")],
    .obj [("success", .b false), ("error", .s "Points must be between 0 and 49")],
    .obj [("success", .b true), ("message", .s m), ("player", pay)],
    .obj [("success", .b false), ("error", .s "Player name already exists")],
    .obj [("success", .b true), ("message", .s m)],
    .obj [("success", .b false), ("error", .s "One or both players not found")],
    .obj [("success", .b false), ("error", .s "Either winner/loser names or IDs are required")],
    .obj [("success", .b false), ("error", .s "Winner and loser cannot be the same player")],
    .obj [("success", .b false), ("error", .s m)],
    .obj [("success", .b true), ("message", .s m), ("winner", pay), ("loser", pay)],
    .obj [("success", .b true), ("matches", pay)],
    .obj [("success", .b true), ("archives", pay)],
    .obj [("success", .b false), ("error", .s "All fields are required")],
    .obj [("success", .b false), ("error", .s "All three winners must be different players")],
    .obj [("success", .b false), ("error", .s "One or more players not found")],
    .obj [("success", .b false), ("error", .s "Archive for this month already exists")],
    .obj [("success", .b false), ("error", .s "Invalid archive ID")],
    .obj [("success", .b false), ("error", .s "Archive not found")],
    .obj [("success", .b true), ("tournament_winners", pay)],
    .obj [("success", .b true), ("message", .s "Tournament winner status updated!")],
    .obj [("success", .b false), ("error", .s "Tournament winner entry already exists")],
    .obj [("success", .b true), ("message", .s "Tournament winner badge added successfully!")],
    .obj [("success", .b false), ("error", .s "Tournament winner not found")],
    .obj [("success", .b true), ("message", .s "Tournament winner badge removed successfully!")],
    .obj [("success", .b true), ("message", .s m)],
    .obj [("success", .b true), ("status", .s "healthy"), ("timestamp", .s m),
      ("database", .s "connected"), ("server_time", pay)],
    .obj [("success", .b false), ("status", .s "unhealthy"),
      ("database", .s "disconnected"), ("error", .s m)],
    handleErrorBody "Internal server error" d,
    .obj [("success", .b false), ("error", .s "Endpoint not found")] ]

/-- Every response body `src/unnamed/part_001` can produce, one entry per
`res.json(...)` site, dynamic parts abstracted as in `pgResponses`. -/
def myResponses (m : String) (pay : Json) : List Json :=
  [ .obj [("error", .s "No token provided")],
    .obj [("error", .s "Invalid token")],
    .obj [("success", .b true), ("token", .s m), ("message", .s "Authentication successful")],
    .obj [("success", .b false), ("message", .s "Invalid password")],
    .obj [("error", .s "Server error during authentication")],
    .obj [("success", .b true), ("players", pay)],
    .obj [("error", .s "Failed to fetch leaderboard")],
    .obj [("success", .b true), ("top3", pay)],
    .obj [("error", .s "Failed to fetch top 3")],
    .obj [("error", .s "Player not found")],
    .obj [("success", .b true), ("player", pay), ("matchHistory", pay)],
    .obj [("error", .s "Player name is required")],
    .obj [("success", .b true), ("message", .s m)],
    .obj [("error", .s "Player name already exists")],
    .obj [("error", .s "Failed to add player")],
    .obj [("error", .s "Winner and loser IDs are required")],
    .obj [("error", .s "Winner and loser cannot be the same player")],
    .obj [("success", .b true), ("message", .s "Match recorded successfully!"),
      ("winner", pay), ("loser", pay)],
    .obj [("error", .s "Failed to record match")],
    .obj [("error", .s "Failed to fetch players")],
    .obj [("success", .b true), ("message", .s "Player removed successfully!")],
    .obj [("error", .s "Failed to remove player")],
    .obj [("success", .b true), ("archives", pay)],
    .obj [("error", .s "Failed to fetch archives")],
    .obj [("error", .s "Archive for this month already exists")],
    .obj [("error", .s "Failed to create archive")],
    .obj [("error", .s "Archive not found")],
    .obj [("success", .b true), ("message", .s "Archive deleted successfully!")],
    .obj [("error", .s "Failed to delete archive")],
    .obj [("success", .b true), ("message", .s "Tournament winner status updated!")],
    .obj [("error", .s "Failed to update tournament winner status")],
    .obj [("success", .b true), ("matches", pay)],
    .obj [("error", .s "Failed to fetch recent matches")],
    .obj [("status", .s "healthy"), ("timestamp", .s m), ("database", .s "connected")],
    .obj [("error", .s "Internal server error")] ]

/-- The spec's leaderboard ordering chain, read off its words: one row ranks
strictly before another when it has higher points, or equal points and more
wins, or equal points and wins and a lexicographically smaller name. -/
def claimBefore (pts1 pts2 : Int) (w1 w2 : Nat) (n1 n2 : String) : Bool :=
  (pts2 < pts1) || (pts1 = pts2 && ((w2 < w1) || (w1 = w2 && nameLt n1 n2)))

/-- Follows the spec's wording: win percentage is `wins / (wins + losses) *
100` rounded (half away from zero) to 2 decimal places, and exactly 0 with no
games played. -/
def specWinPercentage (w l : Nat) : Rat :=
  if w + l = 0 then 0
  else ((⌊(w : Rat) / ((w : Rat) + (l : Rat)) * 100 * 100 + 1 / 2⌋ : Int) : Rat) / 100

/-- A one-player store of the PostgreSQL variant, used as concrete input. -/
def pgStoreA : Pg.Store := ⟨[⟨1, "Alice", 10, "Gold"⟩], [], [], []⟩

/-- A one-player store of the MySQL variant, used as concrete input. -/
def myStoreA : My.Store := ⟨[⟨1, "Alice", 10, "Gold", 2, 1, true, false, false⟩], [], []⟩

/-- A three-player store of the MySQL variant, used as concrete input. -/
def myStoreB : My.Store :=
  ⟨[⟨1, "Alice", 10, "Gold", 2, 1, true, false, false⟩,
    ⟨2, "Bob", 8, "Silver", 1, 1, true, false, false⟩,
    ⟨3, "Cara", 5, "Bronze", 0, 2, true, false, false⟩], [], []⟩

/-- A three-player one-archive store of the PostgreSQL variant. -/
def pgStoreB : Pg.Store :=
  ⟨[⟨1, "Alice", 10, "Gold"⟩, ⟨2, "Bob", 8, "Silver"⟩, ⟨3, "Cara", 5, "Bronze"⟩],
   [], [⟨1, "2024-01", 1, 10, 2, 8, 3, 5⟩], []⟩

/-- A two-player store of the MySQL variant, used as concrete input. -/
def myStoreC : My.Store :=
  ⟨[⟨1, "Alice", 10, "Gold", 0, 0, true, false, false⟩,
    ⟨2, "Bob", 8, "Silver", 0, 0, true, false, false⟩], [], []⟩

/-- A three-player store of the PostgreSQL variant, used as concrete input. -/
def pgStoreC : Pg.Store :=
  ⟨[⟨1, "Alice", 10, "Gold"⟩, ⟨2, "Bob", 8, "Silver"⟩, ⟨3, "Cara", 5, "Bronze"⟩],
   [], [], []⟩

/-- End-to-end resolution of one participant id in the MySQL variant: the
`RecordMatch` procedure looks the id up among existing active players; an
untruthy id never reaches the procedure. -/
def My.resolveId (st : My.Store) (x : Option Nat) : Option My.Player :=
  if truthyN x then st.players.find? (fun p => p.is_active && p.id = x.getD 0)
  else none

/-- A store of the MySQL variant with two players tied on points and wins but
with different win percentages, used as concrete input. -/
def myStoreD : My.Store :=
  ⟨[⟨1, "A", 5, "g", 2, 2, true, false, false⟩,
    ⟨2, "B", 5, "g", 2, 0, true, false, false⟩], [], []⟩

/-- A store of the PostgreSQL variant with two players tied on points, one
having a recorded win, used as concrete input. -/
def pgStoreE : Pg.Store :=
  ⟨[⟨1, "Ann", 10, "g"⟩, ⟨2, "Ben", 10, "g"⟩], [⟨2, 1, "g", "g", 1, -1, 0⟩], [], []⟩

/-- The empty store of the PostgreSQL variant. -/
def pgStoreEmpty : Pg.Store := ⟨[], [], [], []⟩

/-- The empty store of the MySQL variant. -/
def myStoreEmpty : My.Store := ⟨[], [], []⟩

/-- A store of the PostgreSQL variant holding three matches. -/
def pgStoreF : Pg.Store :=
  ⟨[], [⟨1, 2, "g", "g", 1, -1, 5⟩, ⟨2, 1, "g", "g", 1, -1, 3⟩,
    ⟨1, 2, "g", "g", 1, -1, 9⟩], [], []⟩

theorem lexLe_total : ∀ as bs, lexLe as bs = true ∨ lexLe bs as = true := by
  intro as
  induction as with
  | nil => intro bs; left; rfl
  | cons a as ih =>
    intro bs
    cases bs with
    | nil => right; rfl
    | cons b bs =>
      by_cases hab : a < b
      · left; simp [lexLe, hab]
      · by_cases hba : b < a
        · right; simp [lexLe, hba, Nat.lt_asymm hba]
        · have hEq : a = b := Nat.le_antisymm (Nat.le_of_not_lt hba) (Nat.le_of_not_lt hab)
          subst hEq
          rcases ih bs with h | h
          · left; simpa [lexLe] using h
          · right; simpa [lexLe] using h

theorem lexLe_trans : ∀ as bs cs, lexLe as bs = true → lexLe bs cs = true →
    lexLe as cs = true := by
  intro as
  induction as with
  | nil => intro bs cs _ _; rfl
  | cons a as ih =>
    intro bs cs h1 h2
    cases bs with
    | nil => simp [lexLe] at h1
    | cons b bs =>
      cases cs with
      | nil => simp [lexLe] at h2
      | cons c cs =>
        by_cases hab : a < b
        · by_cases hbc : b < c
          · simp [lexLe, Nat.lt_trans hab hbc]
          · by_cases hcb : c < b
            · simp [lexLe, hbc, hcb] at h2
            · have : b = c := Nat.le_antisymm (Nat.le_of_not_lt hcb) (Nat.le_of_not_lt hbc)
              subst this
              simp [lexLe, hab]
        · by_cases hba : b < a
          · simp [lexLe, hab, hba] at h1
          · have hEq : a = b := Nat.le_antisymm (Nat.le_of_not_lt hba) (Nat.le_of_not_lt hab)
            subst hEq
            simp only [lexLe, Nat.lt_irrefl, if_false] at h1
            by_cases hac : a < c
            · simp [lexLe, hac]
            · by_cases hca : c < a
              · simp [lexLe, hac, hca] at h2
              · have : a = c := Nat.le_antisymm (Nat.le_of_not_lt hca) (Nat.le_of_not_lt hac)
                subst this
                simp only [lexLe, Nat.lt_irrefl, if_false] at h2 ⊢
                exact ih bs cs h1 h2

theorem lexLe_antisymm : ∀ as bs, lexLe as bs = true → lexLe bs as = true → as = bs := by
  intro as
  induction as with
  | nil =>
    intro bs _ h2
    cases bs with
    | nil => rfl
    | cons b bs => simp [lexLe] at h2
  | cons a as ih =>
    intro bs h1 h2
    cases bs with
    | nil => simp [lexLe] at h1
    | cons b bs =>
      by_cases hab : a < b
      · simp [lexLe, hab, Nat.lt_asymm hab] at h2
      · by_cases hba : b < a
        · simp [lexLe, hab, hba] at h1
        · have hEq : a = b := Nat.le_antisymm (Nat.le_of_not_lt hba) (Nat.le_of_not_lt hab)
          subst hEq
          simp only [lexLe, Nat.lt_irrefl, if_false] at h1 h2
          rw [ih bs h1 h2]

theorem lexLt_of_lexLe_ne : ∀ as bs, lexLe as bs = true → as ≠ bs → lexLt as bs = true := by
  intro as
  induction as with
  | nil =>
    intro bs _ hne
    cases bs with
    | nil => exact absurd rfl hne
    | cons b bs => rfl
  | cons a as ih =>
    intro bs h1 hne
    cases bs with
    | nil => simp [lexLe] at h1
    | cons b bs =>
      by_cases hab : a < b
      · simp [lexLt, hab]
      · by_cases hba : b < a
        · simp [lexLe, hab, hba] at h1
        · have hEq : a = b := Nat.le_antisymm (Nat.le_of_not_lt hba) (Nat.le_of_not_lt hab)
          subst hEq
          simp only [lexLe, Nat.lt_irrefl, if_false] at h1
          simp only [lexLt, Nat.lt_irrefl, if_false]
          exact ih bs h1 (fun h => hne (by rw [h]))

theorem lexLt_asymm : ∀ as bs, lexLt as bs = true → lexLt bs as = true → False := by
  intro as
  induction as with
  | nil =>
    intro bs h1 h2
    cases bs with
    | nil => simp [lexLt] at h1
    | cons b bs => simp [lexLt] at h2
  | cons a as ih =>
    intro bs h1 h2
    cases bs with
    | nil => simp [lexLt] at h1
    | cons b bs =>
      by_cases hab : a < b
      · simp [lexLt, hab, Nat.lt_asymm hab] at h2
      · by_cases hba : b < a
        · simp [lexLt, hab, hba] at h1
        · have hEq : a = b := Nat.le_antisymm (Nat.le_of_not_lt hba) (Nat.le_of_not_lt hab)
          subst hEq
          simp only [lexLt, Nat.lt_irrefl, if_false] at h1 h2
          exact ih bs h1 h2

theorem lexLe_of_lexLt : ∀ as bs, lexLt as bs = true → lexLe as bs = true := by
  intro as
  induction as with
  | nil => intro bs _; rfl
  | cons a as ih =>
    intro bs h
    cases bs with
    | nil => simp [lexLt] at h
    | cons b bs =>
      by_cases hab : a < b
      · simp [lexLe, hab]
      · by_cases hba : b < a
        · simp [lexLt, hab, hba] at h
        · have hEq : a = b := Nat.le_antisymm (Nat.le_of_not_lt hba) (Nat.le_of_not_lt hab)
          subst hEq
          simp only [lexLt, Nat.lt_irrefl, if_false] at h
          simp only [lexLe, Nat.lt_irrefl, if_false]
          exact ih bs h

theorem strKey_inj {a b : String} (h : strKey a = strKey b) : a = b := by
  have hchars : a.toList = b.toList := by
    have hinj : Function.Injective Char.toNat := by
      intro x y hxy
      have hv : x.val = y.val := by
        apply UInt32.ext
        exact hxy
      exact Char.ext hv
    exact List.map_injective_iff.mpr hinj h
  have hdata : a.data = b.data := hchars
  cases a
  cases b
  exact congrArg String.mk hdata

theorem nameLe_total (a b : String) : nameLe a b = true ∨ nameLe b a = true :=
  lexLe_total _ _

theorem nameLe_trans {a b c : String} (h1 : nameLe a b = true) (h2 : nameLe b c = true) :
    nameLe a c = true := lexLe_trans _ _ _ h1 h2

theorem nameLt_of_nameLe_ne {a b : String} (h1 : nameLe a b = true) (h2 : a ≠ b) :
    nameLt a b = true :=
  lexLt_of_lexLe_ne _ _ h1 (fun hk => h2 (strKey_inj hk))

theorem nameLt_asymm {a b : String} (h1 : nameLt a b = true) (h2 : nameLt b a = true) :
    False := lexLt_asymm _ _ h1 h2

theorem nameLe_of_nameLt {a b : String} (h : nameLt a b = true) : nameLe a b = true :=
  lexLe_of_lexLt _ _ h

theorem insertBy_perm (le : α → α → Bool) (a : α) (l : List α) :
    List.Perm (insertBy le a l) (a :: l) := by
  induction l with
  | nil => exact List.Perm.refl _
  | cons b t ih =>
    by_cases h : le a b
    · simp [insertBy, h]
    · simp only [insertBy, h, if_false]
      exact List.Perm.trans (List.Perm.cons b ih) (List.Perm.swap a b t)

theorem orderBy_perm (le : α → α → Bool) (l : List α) :
    List.Perm (orderBy le l) l := by
  induction l with
  | nil => exact List.Perm.refl _
  | cons a t ih =>
    exact List.Perm.trans (insertBy_perm le a (orderBy le t)) (List.Perm.cons a ih)

theorem insertBy_pairwise (le : α → α → Bool)
    (total : ∀ x y, le x y = true ∨ le y x = true)
    (trans : ∀ x y z, le x y = true → le y z = true → le x z = true)
    (a : α) (l : List α) (hl : List.Pairwise (fun x y => le x y = true) l) :
    List.Pairwise (fun x y => le x y = true) (insertBy le a l) := by
  induction l with
  | nil => simp [insertBy]
  | cons b t ih =>
    rcases List.pairwise_cons.mp hl with ⟨hb, ht⟩
    by_cases h : le a b
    · simp only [insertBy, h, if_true]
      refine List.pairwise_cons.mpr ⟨?_, hl⟩
      intro x hx
      rcases List.mem_cons.mp hx with hx1 | hx1
      · rw [hx1]; exact h
      · exact trans a b x h (hb x hx1)
    · simp only [insertBy, h, if_false]
      refine List.pairwise_cons.mpr ⟨?_, ih ht⟩
      intro x hx
      have hba : le b a = true := by
        rcases total a b with h' | h'
        · exact absurd h' h
        · exact h'
      have hmem := (insertBy_perm le a t).mem_iff.mp hx
      rcases List.mem_cons.mp hmem with hx1 | hx1
      · rw [hx1]; exact hba
      · exact hb x hx1

theorem orderBy_pairwise (le : α → α → Bool)
    (total : ∀ x y, le x y = true ∨ le y x = true)
    (trans : ∀ x y z, le x y = true → le y z = true → le x z = true)
    (l : List α) :
    List.Pairwise (fun x y => le x y = true) (orderBy le l) := by
  induction l with
  | nil => simp [orderBy]
  | cons a t ih => exact insertBy_pairwise le total trans a (orderBy le t) ih

/-- Two permuted lists that are both strictly sorted by an asymmetric relation
are equal. -/
theorem eq_of_perm_of_pairwise {r : α → α → Prop}
    (asymm : ∀ x y, r x y → r y x → False) :
    ∀ l₁ l₂ : List α, List.Perm l₁ l₂ →
      List.Pairwise r l₁ → List.Pairwise r l₂ → l₁ = l₂ := by
  intro l₁
  induction l₁ with
  | nil =>
    intro l₂ hp _ _
    exact hp.nil_eq
  | cons a t ih =>
    intro l₂ hp h1 h2
    cases l₂ with
    | nil => exact absurd hp.symm.nil_eq (by simp)
    | cons b t₂ =>
      rcases List.pairwise_cons.mp h1 with ⟨ha, ht⟩
      rcases List.pairwise_cons.mp h2 with ⟨hb, ht₂⟩
      by_cases hab : a = b
      · subst hab
        have := ih t₂ (List.Perm.cons_inv hp) ht ht₂
        rw [this]
      · have haMem : a ∈ b :: t₂ := hp.mem_iff.mp (by simp)
        have hbMem : b ∈ a :: t := hp.mem_iff.mpr (by simp)
        have haIn : a ∈ t₂ := by
          rcases List.mem_cons.mp haMem with h3 | h3
          · exact absurd h3 hab
          · exact h3
        have hbIn : b ∈ t := by
          rcases List.mem_cons.mp hbMem with h3 | h3
          · exact absurd h3.symm hab
          · exact h3
        exact absurd (ha b hbIn) (fun hr => asymm a b hr (hb a haIn))

theorem my_deactivate_id (pid : Nat) (p : My.Player) :
    (My.deactivate pid p).id = p.id := by
  unfold My.deactivate; split <;> rfl

theorem my_deactivate_name (pid : Nat) (p : My.Player) :
    (My.deactivate pid p).name = p.name := by
  unfold My.deactivate; split <;> rfl

theorem my_deactivate_points (pid : Nat) (p : My.Player) :
    (My.deactivate pid p).points = p.points := by
  unfold My.deactivate; split <;> rfl

theorem my_crown_id (f g t : Nat) (p : My.Player) :
    (My.crown f g t p).id = p.id := by
  unfold My.crown; split <;> rfl

theorem my_crown_champ (f g t : Nat) (p : My.Player)
    (h : p.id = f ∨ p.id = g ∨ p.id = t) :
    (My.crown f g t p).is_champion = true := by
  unfold My.crown
  rw [if_pos h]

theorem my_deleteArchive_players (s : My.Store) (aid : Nat) :
    (My.deleteArchive s aid).fst.players = s.players := by
  unfold My.deleteArchive; split <;> rfl

theorem my_createArchive_ok_players (s s1 : My.Store) (month : String)
    (f g t : Nat) (tp tm : Option Nat)
    (h : My.createArchive s month f g t tp tm = (s1, Api.ok)) :
    s1.players = s.players.map (My.crown f g t) := by
  unfold My.createArchive at h
  dsimp only at h
  split at h
  · unfold My.createArchiveCore at h
    split at h
    · exact absurd (congrArg Prod.snd h) (by simp)
    · have h1 := congrArg Prod.fst h
      dsimp at h1
      rw [← h1]
  · exact absurd (congrArg Prod.snd h) (by simp)

/-- C1 (counterexample): in `src/server.js` the remove operation physically
deletes the player row rather than flipping an activity flag — removing
existing player 1 leaves an empty `players` table. -/
theorem c1_counterexample :
    Pg.removePlayer pgStoreA "1" = (⟨[], [], [], []⟩, Api.ok) := by decide

/-- C1 (amended): in the MySQL variant (`src/unnamed/part_001`) the remove
operation only flips the named player's `is_active` flag to false: ids,
names, points and the match ledger are unchanged, the targeted rows become
inactive, and every player id resolvable before is still resolvable after,
so match rows keep referencing existing players.  In `src/server.js` the
remove operation instead deletes the row (see the counterexample). -/
theorem c1_remove_flips_only_activity (s : My.Store) (pid : Nat) :
    ((My.removePlayer s pid).fst.players.map (fun p => p.id) =
      s.players.map (fun p => p.id)) ∧
    ((My.removePlayer s pid).fst.players.map (fun p => p.name) =
      s.players.map (fun p => p.name)) ∧
    ((My.removePlayer s pid).fst.players.map (fun p => p.points) =
      s.players.map (fun p => p.points)) ∧
    ((My.removePlayer s pid).fst.«matches» = s.«matches») ∧
    (∀ p, p ∈ (My.removePlayer s pid).fst.players → p.id = pid →
      p.is_active = false) ∧
    (∀ w, (∃ p, p ∈ s.players ∧ p.id = w) →
      ∃ q, q ∈ (My.removePlayer s pid).fst.players ∧ q.id = w) := by
  by_cases hany : (s.players.any (fun p => p.id = pid)) = true
  · have hrem : (My.removePlayer s pid).fst =
        { s with players := s.players.map (My.deactivate pid) } := by
      unfold My.removePlayer
      rw [if_pos hany]
    rw [hrem]
    refine ⟨?_, ?_, ?_, rfl, ?_, ?_⟩
    · dsimp only
      rw [List.map_map]
      exact List.map_congr_left (fun p _ => my_deactivate_id pid p)
    · dsimp only
      rw [List.map_map]
      exact List.map_congr_left (fun p _ => my_deactivate_name pid p)
    · dsimp only
      rw [List.map_map]
      exact List.map_congr_left (fun p _ => my_deactivate_points pid p)
    · intro p hp hpid
      dsimp only at hp
      rcases List.mem_map.mp hp with ⟨q, hq, rfl⟩
      rw [my_deactivate_id] at hpid
      unfold My.deactivate
      rw [if_pos hpid]
    · intro w hw
      rcases hw with ⟨p, hp, hpw⟩
      refine ⟨My.deactivate pid p, ?_, ?_⟩
      · dsimp only
        exact List.mem_map_of_mem _ hp
      · rw [my_deactivate_id]
        exact hpw
  · have hrem : (My.removePlayer s pid).fst = s := by
      unfold My.removePlayer
      rw [if_neg hany]
    rw [hrem]
    refine ⟨rfl, rfl, rfl, rfl, ?_, ?_⟩
    · intro p hp hpid
      exact absurd (List.any_eq_true.mpr ⟨p, hp, by simp [hpid]⟩) hany
    · intro w hw
      rcases hw with ⟨p, hp, hpw⟩
      exact ⟨p, hp, hpw⟩

/-- C1 (witness): the amended theorem applied to the one-player store — ids
survive the removal and the updated row is inactive. -/
theorem c1_remove_flips_only_activity_witness :
    ((My.removePlayer myStoreA 1).fst.players.map (fun p => p.id) =
      myStoreA.players.map (fun p => p.id)) ∧
    (⟨1, "Alice", 10, "Gold", 2, 1, false, false, false⟩ : My.Player).is_active = false := by
  refine ⟨(c1_remove_flips_only_activity myStoreA 1).1, ?_⟩
  exact (c1_remove_flips_only_activity myStoreA 1).2.2.2.2.1
    ⟨1, "Alice", 10, "Gold", 2, 1, false, false, false⟩ (by decide) rfl

/-- C2 (counterexample): in `src/server.js` the champion flag is derived by
joining the surviving `monthly_archives` rows, so deleting the only archive
naming players 1, 2, 3 flips their reported `is_champion` from true to
false — the flag is not permanent in this variant. -/
theorem c2_counterexample :
    ((Pg.leaderboard pgStoreB).map (fun r => r.is_champion) = [true, true, true]) ∧
    ((Pg.leaderboard (Pg.deleteArchive pgStoreB "1").fst).map (fun r => r.is_champion) =
      [false, false, false]) := by decide

/-- C2 (amended): in the MySQL variant (`src/unnamed/part_001`), where
`is_champion` is a stored player column set by archive creation, deleting any
archive afterwards removes only the archive row: the three archived players
still carry `is_champion = true`, both in the store and in every leaderboard
row derived from them.  In `src/server.js` the flag is derived from the
surviving archives and is revoked (see the counterexample). -/
theorem c2_champion_flag_persists_my (s s1 : My.Store) (month : String)
    (f g t : Nat) (tp tm : Option Nat) (aid : Nat)
    (hok : My.createArchive s month f g t tp tm = (s1, Api.ok)) :
    (∀ p, p ∈ (My.deleteArchive s1 aid).fst.players →
      (p.id = f ∨ p.id = g ∨ p.id = t) → p.is_champion = true) ∧
    (∀ r, r ∈ My.leaderboard (My.deleteArchive s1 aid).fst →
      (r.id = f ∨ r.id = g ∨ r.id = t) → r.is_champion = true) := by
  have hpl : (My.deleteArchive s1 aid).fst.players = s.players.map (My.crown f g t) := by
    rw [my_deleteArchive_players]
    exact my_createArchive_ok_players s s1 month f g t tp tm hok
  have hmain : ∀ p, p ∈ (My.deleteArchive s1 aid).fst.players →
      (p.id = f ∨ p.id = g ∨ p.id = t) → p.is_champion = true := by
    intro p hp htriple
    rw [hpl] at hp
    rcases List.mem_map.mp hp with ⟨q, hq, rfl⟩
    rw [my_crown_id] at htriple
    exact my_crown_champ f g t q htriple
  refine ⟨hmain, ?_⟩
  intro r hr htriple
  unfold My.leaderboard at hr
  rcases List.mem_map.mp hr with ⟨ip, hip, rfl⟩
  obtain ⟨i, q⟩ := ip
  have hq : q ∈ orderBy My.myLe
      ((My.deleteArchive s1 aid).fst.players.filter (fun p => p.is_active)) := by
    rcases List.mem_enum hip with ⟨hlt, hEq⟩
    rw [hEq]
    exact List.getElem_mem hlt
  have hq2 := (orderBy_perm _ _).mem_iff.mp hq
  have hq3 : q ∈ (My.deleteArchive s1 aid).fst.players := (List.mem_filter.mp hq2).1
  exact hmain q hq3 htriple

/-- C2 (witness): after archiving players 1, 2, 3 of the concrete store and
deleting that archive, player 1's row still carries the champion flag. -/
theorem c2_champion_flag_persists_my_witness :
    (⟨1, "Alice", 10, "Gold", 2, 1, true, true, false⟩ : My.Player).is_champion = true := by
  have hsnd : (My.createArchive myStoreB "2024-01" 1 2 3 none none).snd = Api.ok := by
    decide
  have hok : My.createArchive myStoreB "2024-01" 1 2 3 none none =
      ((My.createArchive myStoreB "2024-01" 1 2 3 none none).fst, Api.ok) :=
    Prod.ext rfl hsnd
  exact (c2_champion_flag_persists_my myStoreB _ "2024-01" 1 2 3 none none 1 hok).1
    ⟨1, "Alice", 10, "Gold", 2, 1, true, true, false⟩ (by decide) (Or.inl rfl)

theorem find?_filter_of_imp {α : Type} (l : List α) (p q : α → Bool)
    (himp : ∀ a, q a = true → p a = true) :
    (l.filter p).find? q = l.find? q := by
  induction l with
  | nil => rfl
  | cons a t ih =>
    by_cases hq : q a = true
    · have hp := himp a hq
      simp [List.filter_cons, hp, List.find?_cons, hq]
    · by_cases hp : p a = true
      · simp [List.filter_cons, hp, List.find?_cons, hq, ih]
      · simp [List.filter_cons, hp, List.find?_cons, hq, ih]

theorem length_filter_eq_three (l : List Pg.Player) (fi si ti : Nat)
    (hnd : (l.map (fun p => p.player_id)).Nodup)
    (hne1 : fi ≠ si) (hne2 : fi ≠ ti) (hne3 : si ≠ ti)
    (pf ps pt : Pg.Player)
    (hf : l.find? (fun p => p.player_id = fi) = some pf)
    (hg : l.find? (fun p => p.player_id = si) = some ps)
    (ht : l.find? (fun p => p.player_id = ti) = some pt) :
    (l.filter (fun p =>
      p.player_id = fi ∨ p.player_id = si ∨ p.player_id = ti)).length = 3 := by
  have hfid : pf.player_id = fi := by simpa using List.find?_some hf
  have hsid : ps.player_id = si := by simpa using List.find?_some hg
  have htid : pt.player_id = ti := by simpa using List.find?_some ht
  have hsub : (l.filter (fun p =>
      p.player_id = fi ∨ p.player_id = si ∨ p.player_id = ti)).Sublist l :=
    List.filter_sublist l
  have hndrows : ((l.filter (fun p =>
      p.player_id = fi ∨ p.player_id = si ∨ p.player_id = ti)).map
        (fun p => p.player_id)).Nodup :=
    List.Nodup.sublist (List.Sublist.map (fun p => p.player_id) hsub) hnd
  have hsubset : (l.filter (fun p =>
      p.player_id = fi ∨ p.player_id = si ∨ p.player_id = ti)).map
        (fun p => p.player_id) ⊆ [fi, si, ti] := by
    intro x hx
    rcases List.mem_map.mp hx with ⟨p, hp, rfl⟩
    rcases List.mem_filter.mp hp with ⟨_, hpred⟩
    have hd := of_decide_eq_true hpred
    rcases hd with h | h | h <;> simp [h]
  have hmemf : pf ∈ l.filter (fun p =>
      p.player_id = fi ∨ p.player_id = si ∨ p.player_id = ti) :=
    List.mem_filter.mpr ⟨List.mem_of_find?_eq_some hf, by simp [hfid]⟩
  have hmems : ps ∈ l.filter (fun p =>
      p.player_id = fi ∨ p.player_id = si ∨ p.player_id = ti) :=
    List.mem_filter.mpr ⟨List.mem_of_find?_eq_some hg, by simp [hsid]⟩
  have hmemt : pt ∈ l.filter (fun p =>
      p.player_id = fi ∨ p.player_id = si ∨ p.player_id = ti) :=
    List.mem_filter.mpr ⟨List.mem_of_find?_eq_some ht, by simp [htid]⟩
  have hsup : ([fi, si, ti] : List Nat) ⊆ (l.filter (fun p =>
      p.player_id = fi ∨ p.player_id = si ∨ p.player_id = ti)).map
        (fun p => p.player_id) := by
    intro x hx
    simp only [List.mem_cons, List.not_mem_nil, or_false] at hx
    rcases hx with rfl | rfl | rfl
    · exact List.mem_map.mpr ⟨pf, hmemf, hfid⟩
    · exact List.mem_map.mpr ⟨ps, hmems, hsid⟩
    · exact List.mem_map.mpr ⟨pt, hmemt, htid⟩
  have h1 := (List.subperm_of_subset hndrows hsubset).length_le
  have hnd3 : ([fi, si, ti] : List Nat).Nodup := by simp [hne1, hne2, hne3]
  have h2 := (List.subperm_of_subset hnd3 hsup).length_le
  have hml : ((l.filter (fun p =>
      p.player_id = fi ∨ p.player_id = si ∨ p.player_id = ti)).map
        (fun p => p.player_id)).length = 3 := by
    have h3 : ([fi, si, ti] : List Nat).length = 3 := rfl
    omega
  simpa using hml

/-- C3 (counterexample): the MySQL variant (`src/unnamed/part_001`) performs
no distinctness check — an archive request naming player 1 as both first and
second place succeeds and inserts a row with the duplicated placement. -/
theorem c3_counterexample :
    ((My.createArchive myStoreC "2024-01" 1 1 2 none none).snd = Api.ok) ∧
    ((My.createArchive myStoreC "2024-01" 1 1 2 none none).fst.archives.map
      (fun a => (a.first_place_player_id, a.second_place_player_id)) = [(1, 1)]) := by
  decide

/-- C3 (amended): in `src/server.js`, duplicate placement ids are rejected
with a "must be different" error and no insert; a request whose month already
has an archive never inserts a row and never succeeds; and a request with all
fields present, pairwise distinct ids that all resolve (under unique player
ids), and a fresh month inserts exactly one archive row capturing each of the
three players' current points.  The MySQL variant accepts duplicated
placement ids (see the counterexample). -/
theorem c3_archive_validation_pg (st : Pg.Store) (month : Option String)
    (f g t : Option Nat) :
    ((truthyS month && truthyN f && truthyN g && truthyN t) = true →
      (f.getD 0 = g.getD 0 ∨ f.getD 0 = t.getD 0 ∨ g.getD 0 = t.getD 0) →
      Pg.createArchive st month f g t =
        (st, Api.err 400 "All three winners must be different players")) ∧
    (Pg.monthTaken st (month.getD "") = true →
      (Pg.createArchive st month f g t).fst.archives = st.archives ∧
      (Pg.createArchive st month f g t).snd ≠ Api.ok) ∧
    (∀ pf ps pt : Pg.Player,
      (truthyS month && truthyN f && truthyN g && truthyN t) = true →
      ¬(f.getD 0 = g.getD 0 ∨ f.getD 0 = t.getD 0 ∨ g.getD 0 = t.getD 0) →
      (st.players.map (fun p => p.player_id)).Nodup →
      st.players.find? (fun p => p.player_id = f.getD 0) = some pf →
      st.players.find? (fun p => p.player_id = g.getD 0) = some ps →
      st.players.find? (fun p => p.player_id = t.getD 0) = some pt →
      Pg.monthTaken st (month.getD "") = false →
      Pg.createArchive st month f g t =
        ({ st with archives := st.archives ++
          [⟨Pg.freshArchiveId st, month.getD "", f.getD 0, pf.points,
            g.getD 0, ps.points, t.getD 0, pt.points⟩] }, Api.ok)) := by
  refine ⟨?_, ?_, ?_⟩
  · intro htr hdup
    unfold Pg.createArchive
    rw [if_neg (fun hc => hc htr)]
    dsimp only
    rw [if_pos hdup]
  · intro hm
    unfold Pg.createArchive
    dsimp only
    repeat' split
    all_goals exact ⟨rfl, by simp⟩
  · intro pf ps pt htr hdup hnd hf hg ht hm
    have hne1 : f.getD 0 ≠ g.getD 0 := fun h => hdup (Or.inl h)
    have hne2 : f.getD 0 ≠ t.getD 0 := fun h => hdup (Or.inr (Or.inl h))
    have hne3 : g.getD 0 ≠ t.getD 0 := fun h => hdup (Or.inr (Or.inr h))
    have hlen := length_filter_eq_three st.players (f.getD 0) (g.getD 0) (t.getD 0)
      hnd hne1 hne2 hne3 pf ps pt hf hg ht
    have himp1 : ∀ a : Pg.Player, (decide (a.player_id = f.getD 0)) = true →
        (decide (a.player_id = f.getD 0 ∨ a.player_id = g.getD 0 ∨
          a.player_id = t.getD 0)) = true := by
      intro a ha
      have := of_decide_eq_true ha
      simp [this]
    have himp2 : ∀ a : Pg.Player, (decide (a.player_id = g.getD 0)) = true →
        (decide (a.player_id = f.getD 0 ∨ a.player_id = g.getD 0 ∨
          a.player_id = t.getD 0)) = true := by
      intro a ha
      have := of_decide_eq_true ha
      simp [this]
    have himp3 : ∀ a : Pg.Player, (decide (a.player_id = t.getD 0)) = true →
        (decide (a.player_id = f.getD 0 ∨ a.player_id = g.getD 0 ∨
          a.player_id = t.getD 0)) = true := by
      intro a ha
      have := of_decide_eq_true ha
      simp [this]
    have hr1 := (find?_filter_of_imp st.players _ _ himp1).trans hf
    have hr2 := (find?_filter_of_imp st.players _ _ himp2).trans hg
    have hr3 := (find?_filter_of_imp st.players _ _ himp3).trans ht
    unfold Pg.createArchive
    rw [if_neg (fun hc => hc htr)]
    dsimp only
    rw [if_neg hdup, if_neg (not_ne_iff.mpr hlen), hr1, hr2, hr3]
    dsimp only
    rw [if_neg (by simp [hm])]

/-- C3 (witness): the amended theorem's success branch applied to a concrete
well-formed request — one archive row is inserted with the snapshot points
10, 8, 5. -/
theorem c3_archive_validation_pg_witness :
    Pg.createArchive pgStoreC (some "2024-01") (some 1) (some 2) (some 3) =
      ({ pgStoreC with archives := [⟨1, "2024-01", 1, 10, 2, 8, 3, 5⟩] }, Api.ok) := by
  have h := (c3_archive_validation_pg pgStoreC (some "2024-01")
      (some 1) (some 2) (some 3)).2.2
    ⟨1, "Alice", 10, "Gold"⟩ ⟨2, "Bob", 8, "Silver"⟩ ⟨3, "Cara", 5, "Bronze"⟩
    (by decide) (by decide) (by decide) (by decide) (by decide) (by decide) (by decide)
  exact h.trans (by decide)

/-- C4 (confirmed): in both variants, whenever the winner reference and the
loser reference resolve to the same player — whether given as a name pair or
as an id pair — the record-match request is rejected with the same-player
error, the store is returned unchanged (so no match row is appended and no
points change), and this holds at the level of resolved players, not merely
of equal raw inputs. -/
theorem c4_same_player_rejected :
    (∀ (tierFn : Int → String) (st : Pg.Store) (wid lid : Option Nat)
      (wn ln : Option String) (p : Pg.Player),
      (Pg.resolvePair st wid lid wn ln).1 = some p →
      (Pg.resolvePair st wid lid wn ln).2 = some p →
      Pg.recordMatch tierFn st wid lid wn ln =
        (st, Api.err 400 "Winner and loser cannot be the same player")) ∧
    (∀ (tierFn : Int → String) (st : My.Store) (wid lid : Option Nat)
      (pe : Option Int) (p : My.Player),
      My.resolveId st wid = some p → My.resolveId st lid = some p →
      My.recordMatch tierFn st wid lid pe =
        (st, Api.err 400 "Winner and loser cannot be the same player")) := by
  constructor
  · intro tierFn st wid lid wn ln p h1 h2
    unfold Pg.resolvePair at h1 h2
    unfold Pg.recordMatch
    by_cases hn : (truthyS wn && truthyS ln) = true
    · rw [if_pos hn] at h1 h2 ⊢
      dsimp only at h1 h2
      have e1 : p.name = wn.getD "" := by simpa using List.find?_some h1
      have e2 : p.name = ln.getD "" := by simpa using List.find?_some h2
      unfold Pg.recordNames
      rw [if_pos (e1.symm.trans e2)]
    · rw [if_neg hn] at h1 h2 ⊢
      by_cases hi : (truthyN wid && truthyN lid) = true
      · rw [if_pos hi] at h1 h2 ⊢
        dsimp only at h1 h2
        rw [h1, h2]
        dsimp only
        unfold Pg.recordNames
        rw [if_pos rfl]
      · rw [if_neg hi] at h1
        dsimp only at h1
        exact absurd h1 (by simp)
  · intro tierFn st wid lid pe p h1 h2
    unfold My.resolveId at h1 h2
    by_cases hw : truthyN wid = true
    · by_cases hl : truthyN lid = true
      · rw [if_pos hw] at h1
        rw [if_pos hl] at h2
        have e1 := List.find?_some h1
        have e2 := List.find?_some h2
        rw [Bool.and_eq_true] at e1 e2
        have i1 : p.id = wid.getD 0 := of_decide_eq_true e1.2
        have i2 : p.id = lid.getD 0 := of_decide_eq_true e2.2
        unfold My.recordMatch
        rw [if_neg (by simp [hw, hl])]
        rw [if_pos (i1.symm.trans i2)]
      · rw [if_neg hl] at h2
        exact absurd h2 (by simp)
    · rw [if_neg hw] at h1
      exact absurd h1 (by simp)

/-- C4 (witness): the theorem applied concretely — a name pair resolving to
the same player in the PostgreSQL variant and an id pair resolving to the
same player in the MySQL variant are both rejected with the store unchanged. -/
theorem c4_same_player_rejected_witness :
    (Pg.recordMatch (fun _ => "t") pgStoreC none none (some "Alice") (some "Alice") =
      (pgStoreC, Api.err 400 "Winner and loser cannot be the same player")) ∧
    (My.recordMatch (fun _ => "t") myStoreB (some 1) (some 1) none =
      (myStoreB, Api.err 400 "Winner and loser cannot be the same player")) := by
  constructor
  · exact c4_same_player_rejected.1 (fun _ => "t") pgStoreC none none
      (some "Alice") (some "Alice") ⟨1, "Alice", 10, "Gold"⟩ (by decide) (by decide)
  · exact c4_same_player_rejected.2 (fun _ => "t") myStoreB (some 1) (some 1) none
      ⟨1, "Alice", 10, "Gold", 2, 1, true, false, false⟩ (by decide) (by decide)

theorem nameLt_iff_not_rev {a b : String} (hne : a ≠ b) :
    nameLt a b = true ↔ ¬ nameLt b a = true := by
  constructor
  · intro h1 h2
    exact nameLt_asymm h1 h2
  · intro h2
    rcases nameLe_total a b with h | h
    · exact nameLt_of_nameLe_ne h hne
    · exact absurd (nameLt_of_nameLe_ne h (fun he => hne he.symm)) h2

theorem pg_lbLe_total (s : Pg.Store) (p q : Pg.Player) :
    Pg.lbLe s p q = true ∨ Pg.lbLe s q p = true := by
  unfold Pg.lbLe
  simp only [Bool.or_eq_true, Bool.and_eq_true, decide_eq_true_eq]
  rcases lt_trichotomy q.points p.points with h | h | h
  · exact Or.inl (Or.inl h)
  · rcases Nat.lt_trichotomy (Pg.winsOf s q.player_id) (Pg.winsOf s p.player_id)
      with h2 | h2 | h2
    · exact Or.inl (Or.inr ⟨h.symm, Or.inl h2⟩)
    · rcases nameLe_total p.name q.name with h3 | h3
      · exact Or.inl (Or.inr ⟨h.symm, Or.inr ⟨h2.symm, h3⟩⟩)
      · exact Or.inr (Or.inr ⟨h, Or.inr ⟨h2, h3⟩⟩)
    · exact Or.inr (Or.inr ⟨h, Or.inl h2⟩)
  · exact Or.inr (Or.inl h)

theorem pg_lbLe_trans (s : Pg.Store) (p q r : Pg.Player)
    (h1 : Pg.lbLe s p q = true) (h2 : Pg.lbLe s q r = true) :
    Pg.lbLe s p r = true := by
  unfold Pg.lbLe at h1 h2 ⊢
  simp only [Bool.or_eq_true, Bool.and_eq_true, decide_eq_true_eq] at h1 h2 ⊢
  rcases h1 with h1 | ⟨e1, h1⟩
  · rcases h2 with h2 | ⟨e2, h2⟩
    · exact Or.inl (lt_trans h2 h1)
    · exact Or.inl (by omega)
  · rcases h2 with h2 | ⟨e2, h2⟩
    · exact Or.inl (by omega)
    · refine Or.inr ⟨by omega, ?_⟩
      rcases h1 with h1 | ⟨f1, h1⟩
      · rcases h2 with h2 | ⟨f2, h2⟩
        · exact Or.inl (Nat.lt_trans h2 h1)
        · exact Or.inl (by omega)
      · rcases h2 with h2 | ⟨f2, h2⟩
        · exact Or.inl (by omega)
        · exact Or.inr ⟨by omega, nameLe_trans h1 h2⟩

theorem pg_lbLe_strict (s : Pg.Store) (p q : Pg.Player)
    (h : Pg.lbLe s p q = true) (hne : p.name ≠ q.name) :
    claimBefore p.points q.points (Pg.winsOf s p.player_id)
      (Pg.winsOf s q.player_id) p.name q.name = true := by
  unfold Pg.lbLe at h
  unfold claimBefore
  simp only [Bool.or_eq_true, Bool.and_eq_true, decide_eq_true_eq] at h ⊢
  rcases h with h | ⟨e1, h | ⟨f1, h⟩⟩
  · exact Or.inl h
  · exact Or.inr ⟨e1, Or.inl h⟩
  · exact Or.inr ⟨e1, Or.inr ⟨f1, nameLt_of_nameLe_ne h hne⟩⟩

theorem claimBefore_trichotomy (pts1 pts2 : Int) (w1 w2 : Nat) (n1 n2 : String)
    (hne : n1 ≠ n2) :
    claimBefore pts1 pts2 w1 w2 n1 n2 = true ↔
      ¬ claimBefore pts2 pts1 w2 w1 n2 n1 = true := by
  unfold claimBefore
  simp only [Bool.or_eq_true, Bool.and_eq_true, decide_eq_true_eq, not_or, not_and]
  constructor
  · intro h
    rcases h with h | ⟨e1, h | ⟨f1, h⟩⟩
    · exact ⟨by omega, fun e => absurd e (by omega)⟩
    · exact ⟨by omega, fun _ => ⟨by omega, fun f2 => absurd f2 (by omega)⟩⟩
    · exact ⟨by omega, fun _ => ⟨by omega, fun _ hn => nameLt_asymm h hn⟩⟩
  · intro hx
    obtain ⟨hp, hrest⟩ := hx
    rcases lt_trichotomy pts2 pts1 with h | h | h
    · exact Or.inl h
    · obtain ⟨hw, hr2⟩ := hrest h
      refine Or.inr ⟨h.symm, ?_⟩
      rcases Nat.lt_trichotomy w2 w1 with h2 | h2 | h2
      · exact Or.inl h2
      · exact Or.inr ⟨h2.symm, (nameLt_iff_not_rev hne).mpr (hr2 h2)⟩
      · exact absurd h2 hw
    · exact absurd h hp

/-- C5 (counterexample): the MySQL variant ties are broken by
`win_percentage DESC`, not by name — with two active players tied on points
and wins, the produced leaderboard puts "B" (100%) before "A" (50%), so the
list is not ordered by the claimed (points desc, wins desc, name asc) chain. -/
theorem c5_counterexample :
    ¬ List.Pairwise (fun a b : My.LbRow =>
      claimBefore a.points b.points a.wins b.wins a.name b.name = true)
      (My.leaderboard myStoreD) := by decide

/-- C5 (amended): in `src/server.js` (which lists all players — it has no
activity flag) the leaderboard is ordered by the claimed chain
(points desc, wins desc, name asc): the produced rows are pairwise in the
strict claimed order, row names are pairwise distinct whenever player names
are, and on rows with distinct names the claimed chain is a trichotomy, so
exactly one of each pair ranks before the other.  In the MySQL variant the
final tie-break is the win percentage, not the name (see the
counterexample). -/
theorem c5_leaderboard_total_order_pg (s : Pg.Store)
    (hnd : (s.players.map (fun p => p.name)).Nodup) :
    ((Pg.leaderboard s).Pairwise (fun a b =>
      claimBefore a.points b.points a.wins b.wins a.name b.name = true)) ∧
    (((Pg.leaderboard s).map (fun r => r.name)).Nodup) ∧
    (∀ a b : Pg.LbRow, a.name ≠ b.name →
      (claimBefore a.points b.points a.wins b.wins a.name b.name = true ↔
        ¬ claimBefore b.points a.points b.wins a.wins b.name a.name = true)) := by
  have hsorted := orderBy_pairwise (Pg.lbLe s) (pg_lbLe_total s) (pg_lbLe_trans s)
    s.players
  have hperm := orderBy_perm (Pg.lbLe s) s.players
  have hndSorted : ((orderBy (Pg.lbLe s) s.players).map (fun p => p.name)).Nodup :=
    ((hperm.map (fun p => p.name)).symm).nodup hnd
  have hpwne : (orderBy (Pg.lbLe s) s.players).Pairwise (fun p q => p.name ≠ q.name) :=
    List.pairwise_map.mp hndSorted
  have hstrictP : (orderBy (Pg.lbLe s) s.players).Pairwise (fun p q =>
      claimBefore p.points q.points (Pg.winsOf s p.player_id)
        (Pg.winsOf s q.player_id) p.name q.name = true) :=
    (hsorted.and hpwne).imp (fun hpq => pg_lbLe_strict s _ _ hpq.1 hpq.2)
  have hnameEq : (Pg.leaderboard s).map (fun r => r.name) =
      (orderBy (Pg.lbLe s) s.players).map (fun p => p.name) := by
    unfold Pg.leaderboard
    rw [List.map_map]
    rw [show ((fun r : Pg.LbRow => r.name) ∘
        (fun ip : Nat × Pg.Player => Pg.mkLbRow s ip.1 ip.2)) =
        ((fun p : Pg.Player => p.name) ∘ Prod.snd) from rfl]
    rw [← List.map_map, List.enum_map_snd]
  refine ⟨?_, ?_, ?_⟩
  · unfold Pg.leaderboard
    apply List.pairwise_map.mpr
    have h0 : List.Pairwise (fun p q : Pg.Player =>
        claimBefore p.points q.points (Pg.winsOf s p.player_id)
          (Pg.winsOf s q.player_id) p.name q.name = true)
        ((orderBy (Pg.lbLe s) s.players).enum.map Prod.snd) := by
      rw [List.enum_map_snd]
      exact hstrictP
    exact (List.pairwise_map.mp h0).imp (fun h => h)
  · rw [hnameEq]
    exact hndSorted
  · intro a b hne
    exact claimBefore_trichotomy a.points b.points a.wins b.wins a.name b.name hne

/-- C5 (witness): the amended theorem at a concrete three-player store with
distinct names — its leaderboard is pairwise in the claimed strict order. -/
theorem c5_leaderboard_total_order_pg_witness :
    (Pg.leaderboard pgStoreC).Pairwise (fun a b =>
      claimBefore a.points b.points a.wins b.wins a.name b.name = true) :=
  (c5_leaderboard_total_order_pg pgStoreC (by decide)).1

theorem pg_top3Le_total (p q : Pg.Player) :
    Pg.top3Le p q = true ∨ Pg.top3Le q p = true := by
  unfold Pg.top3Le
  simp only [Bool.or_eq_true, Bool.and_eq_true, decide_eq_true_eq]
  rcases lt_trichotomy q.points p.points with h | h | h
  · exact Or.inl (Or.inl h)
  · rcases nameLe_total p.name q.name with h3 | h3
    · exact Or.inl (Or.inr ⟨h.symm, h3⟩)
    · exact Or.inr (Or.inr ⟨h, h3⟩)
  · exact Or.inr (Or.inl h)

theorem pg_top3Le_trans (p q r : Pg.Player)
    (h1 : Pg.top3Le p q = true) (h2 : Pg.top3Le q r = true) :
    Pg.top3Le p r = true := by
  unfold Pg.top3Le at h1 h2 ⊢
  simp only [Bool.or_eq_true, Bool.and_eq_true, decide_eq_true_eq] at h1 h2 ⊢
  rcases h1 with h1 | ⟨e1, h1⟩
  · rcases h2 with h2 | ⟨e2, h2⟩
    · exact Or.inl (lt_trans h2 h1)
    · exact Or.inl (by omega)
  · rcases h2 with h2 | ⟨e2, h2⟩
    · exact Or.inl (by omega)
    · exact Or.inr ⟨by omega, nameLe_trans h1 h2⟩

theorem pg_top3Le_points_strict (p q : Pg.Player)
    (h : Pg.top3Le p q = true) (hne : p.points ≠ q.points) :
    q.points < p.points := by
  unfold Pg.top3Le at h
  simp only [Bool.or_eq_true, Bool.and_eq_true, decide_eq_true_eq] at h
  rcases h with h | ⟨e, _⟩
  · exact h
  · exact absurd e hne

theorem pg_lbLe_points_strict (s : Pg.Store) (p q : Pg.Player)
    (h : Pg.lbLe s p q = true) (hne : p.points ≠ q.points) :
    q.points < p.points := by
  unfold Pg.lbLe at h
  simp only [Bool.or_eq_true, Bool.and_eq_true, decide_eq_true_eq] at h
  rcases h with h | ⟨e, _⟩
  · exact h
  · exact absurd e hne

/-- C6 (counterexample): the podium of `src/server.js` is ordered by
(points desc, name asc), omitting the wins key of the full leaderboard —
with two players tied at 10 points and Ben holding one win, the podium lists
Ann first while the leaderboard's first three entries list Ben first. -/
theorem c6_counterexample :
    ((Pg.top3 pgStoreE).map (fun r => r.name) = ["Ann", "Ben"]) ∧
    (((Pg.leaderboard pgStoreE).take 3).map (fun r => r.name) = ["Ben", "Ann"]) := by
  decide

/-- C6 (amended): the `src/server.js` podium is the first three entries of
the players ordered by (points desc, name asc), not by the full
leaderboard's (points desc, wins desc, name asc); the two projections list
the same players in the same order whenever no two players share a point
total. -/
theorem c6_top3_prefix_pg (s : Pg.Store)
    (hnd : (s.players.map (fun p => p.points)).Nodup) :
    (Pg.top3 s).map (fun r => r.id) =
      ((Pg.leaderboard s).take 3).map (fun r => r.id) := by
  have hpermT := orderBy_perm Pg.top3Le s.players
  have hpermL := orderBy_perm (Pg.lbLe s) s.players
  have hndT : ((orderBy Pg.top3Le s.players).map (fun p => p.points)).Nodup :=
    ((hpermT.map (fun p => p.points)).symm).nodup hnd
  have hndL : ((orderBy (Pg.lbLe s) s.players).map (fun p => p.points)).Nodup :=
    ((hpermL.map (fun p => p.points)).symm).nodup hnd
  have hneT : (orderBy Pg.top3Le s.players).Pairwise (fun p q => p.points ≠ q.points) :=
    List.pairwise_map.mp hndT
  have hneL : (orderBy (Pg.lbLe s) s.players).Pairwise
      (fun p q => p.points ≠ q.points) :=
    List.pairwise_map.mp hndL
  have hsT := orderBy_pairwise Pg.top3Le pg_top3Le_total pg_top3Le_trans s.players
  have hsL := orderBy_pairwise (Pg.lbLe s) (pg_lbLe_total s) (pg_lbLe_trans s)
    s.players
  have hstrictT : (orderBy Pg.top3Le s.players).Pairwise
      (fun p q => q.points < p.points) :=
    (hsT.and hneT).imp (fun h => pg_top3Le_points_strict _ _ h.1 h.2)
  have hstrictL : (orderBy (Pg.lbLe s) s.players).Pairwise
      (fun p q => q.points < p.points) :=
    (hsL.and hneL).imp (fun h => pg_lbLe_points_strict s _ _ h.1 h.2)
  have hEq : orderBy Pg.top3Le s.players = orderBy (Pg.lbLe s) s.players :=
    eq_of_perm_of_pairwise (fun x y h1 h2 => by omega) _ _
      (hpermT.trans hpermL.symm) hstrictT hstrictL
  have hT : (Pg.top3 s).map (fun r => r.id) =
      ((orderBy Pg.top3Le s.players).map (fun p => p.player_id)).take 3 := by
    unfold Pg.top3
    rw [List.map_take, List.map_map]
    rw [show ((fun r : Pg.T3Row => r.id) ∘
        (fun ip : Nat × Pg.Player => Pg.mkT3Row s ip.1 ip.2)) =
        ((fun p : Pg.Player => p.player_id) ∘ Prod.snd) from rfl]
    rw [← List.map_map, List.enum_map_snd]
  have hL : ((Pg.leaderboard s).take 3).map (fun r => r.id) =
      ((orderBy (Pg.lbLe s) s.players).map (fun p => p.player_id)).take 3 := by
    unfold Pg.leaderboard
    rw [List.map_take, List.map_map]
    rw [show ((fun r : Pg.LbRow => r.id) ∘
        (fun ip : Nat × Pg.Player => Pg.mkLbRow s ip.1 ip.2)) =
        ((fun p : Pg.Player => p.player_id) ∘ Prod.snd) from rfl]
    rw [← List.map_map, List.enum_map_snd]
  rw [hT, hL, hEq]

/-- C6 (witness): the amended theorem at the concrete store with pairwise
distinct points — podium and leaderboard prefix name the same players. -/
theorem c6_top3_prefix_pg_witness :
    (Pg.top3 pgStoreC).map (fun r => r.id) =
      ((Pg.leaderboard pgStoreC).take 3).map (fun r => r.id) :=
  c6_top3_prefix_pg pgStoreC (by decide)

theorem winPctH_zero (w l : Nat) (h : w + l = 0) : winPctH w l = 0 := by
  unfold winPctH
  rw [if_pos h]

theorem winPctH_spec (w l : Nat) :
    ((winPctH w l : Nat) : Rat) / 100 = specWinPercentage w l := by
  unfold winPctH specWinPercentage
  by_cases h : w + l = 0
  · rw [if_pos h, if_pos h]
    norm_num
  · rw [if_neg h, if_neg h]
    have hn : ((w : Rat) + (l : Rat)) ≠ 0 := by
      have hpos : (0 : Nat) < w + l := Nat.pos_of_ne_zero h
      exact_mod_cast (Nat.cast_pos.mpr hpos : (0 : Rat) < ((w + l : Nat) : Rat)).ne'
    have harg : (w : Rat) / ((w : Rat) + (l : Rat)) * 100 * 100 + 1 / 2 =
        ((20000 * w + (w + l) : Nat) : Rat) / ((2 * (w + l) : Nat) : Rat) := by
      have h2 : ((2 * (w + l) : Nat) : Rat) ≠ 0 := by
        push_cast
        intro hx
        apply hn
        linarith
      field_simp
      ring
    rw [harg, Rat.floor_natCast_div_natCast]
    congr 1

/-- C7 (confirmed): in both variants' leaderboard projections, the reported
win percentage is exactly `wins / (wins + losses) * 100` rounded (half away
from zero) to two decimal places — stated over the exact rationals, with the
reported value scaled back from integer hundredths — and a player with zero
recorded games is reported with exactly 0 (the SQL `CASE` guard), never an
undefined value. -/
theorem c7_win_percentage :
    (∀ (s : Pg.Store) (r : Pg.LbRow), r ∈ Pg.leaderboard s →
      (((r.win_percentage : Nat) : Rat) / 100 = specWinPercentage r.wins r.losses) ∧
      (r.wins + r.losses = 0 → r.win_percentage = 0)) ∧
    (∀ (s : My.Store) (r : My.LbRow), r ∈ My.leaderboard s →
      (((r.win_percentage : Nat) : Rat) / 100 = specWinPercentage r.wins r.losses) ∧
      (r.wins + r.losses = 0 → r.win_percentage = 0)) := by
  constructor
  · intro s r hr
    unfold Pg.leaderboard at hr
    rcases List.mem_map.mp hr with ⟨ip, hip, rfl⟩
    exact ⟨winPctH_spec _ _, fun h => winPctH_zero _ _ h⟩
  · intro s r hr
    unfold My.leaderboard at hr
    rcases List.mem_map.mp hr with ⟨ip, hip, rfl⟩
    exact ⟨winPctH_spec _ _, fun h => winPctH_zero _ _ h⟩

/-- C7 (witness): the theorem applied to Ben's concrete row (1 win, 0
losses): the reported hundredths value 10000 corresponds to exactly 100%. -/
theorem c7_win_percentage_witness :
    ((((10000 : Nat) : Rat) / 100 = specWinPercentage 1 0) ∧
      ((1 : Nat) + (0 : Nat) = 0 → (10000 : Nat) = 0)) :=
  c7_win_percentage.1 pgStoreE
    ⟨2, "Ben", 10, "g", 1, 0, 10000, false, false, 1⟩ (by decide)

/-- C8 (confirmed): player creation rejects a missing name, a name that is
empty after trimming, and points outside `[0, 49]`, in each case inserting no
row; omitted points default to 0; a duplicate name is rejected as a conflict.
In `src/server.js` all checks live in the route; in the MySQL variant the
route only checks that a name is present and the remaining checks are
performed by the `AddPlayer` procedure (modelled from the spec), surfacing as
a procedure failure. -/
theorem c8_player_creation :
    (∀ (tierFn : Int → String) (st : Pg.Store) (pname : Option String)
      (points : Option Int),
      ((pname = none ∨ jsTrim (pname.getD "") = "") →
        Pg.createPlayer tierFn st pname points =
          (st, Api.err 400 "Player name is required")) ∧
      (¬(pname = none ∨ jsTrim (pname.getD "") = "") →
        (points.getD 0 < 0 ∨ 49 < points.getD 0) →
        Pg.createPlayer tierFn st pname points =
          (st, Api.err 400 "Points must be between 0 and 49")) ∧
      (¬(pname = none ∨ jsTrim (pname.getD "") = "") →
        ¬(points.getD 0 < 0 ∨ 49 < points.getD 0) →
        Pg.nameTaken st (jsTrim (pname.getD "")) = true →
        Pg.createPlayer tierFn st pname points =
          (st, Api.err 400 "Player name already exists")) ∧
      (¬(pname = none ∨ jsTrim (pname.getD "") = "") →
        points = none →
        Pg.nameTaken st (jsTrim (pname.getD "")) = false →
        Pg.createPlayer tierFn st pname points =
          ({ st with players := st.players ++
            [⟨Pg.freshPlayerId st, jsTrim (pname.getD ""), 0, tierFn 0⟩] }, Api.ok))) ∧
    (∀ (tierFn : Int → String) (st : My.Store) (pname : Option String)
      (points : Option Int),
      (truthyS pname = false →
        My.createPlayer tierFn st pname points =
          (st, Api.err 400 "Player name is required")) ∧
      (truthyS pname = true → jsTrim (pname.getD "") = "" →
        My.createPlayer tierFn st pname points =
          (st, Api.err 500 "Failed to add player")) ∧
      (truthyS pname = true → ¬jsTrim (pname.getD "") = "" →
        (points.getD 0 < 0 ∨ 49 < points.getD 0) →
        My.createPlayer tierFn st pname points =
          (st, Api.err 500 "Failed to add player")) ∧
      (truthyS pname = true → ¬jsTrim (pname.getD "") = "" →
        ¬(points.getD 0 < 0 ∨ 49 < points.getD 0) →
        (st.players.any (fun p => p.is_active && p.name = jsTrim (pname.getD ""))) = true →
        My.createPlayer tierFn st pname points =
          (st, Api.err 400 "Player name already exists")) ∧
      (truthyS pname = true → ¬jsTrim (pname.getD "") = "" →
        points = none →
        (st.players.any (fun p => p.is_active && p.name = jsTrim (pname.getD ""))) = false →
        My.createPlayer tierFn st pname points =
          ({ st with players := st.players ++
            [⟨My.freshId st, jsTrim (pname.getD ""), 0, tierFn 0, 0, 0,
              true, false, false⟩] }, Api.ok))) := by
  constructor
  · intro tierFn st pname points
    refine ⟨?_, ?_, ?_, ?_⟩
    · intro h
      unfold Pg.createPlayer
      dsimp only
      rw [if_pos h]
    · intro h1 h2
      unfold Pg.createPlayer
      dsimp only
      rw [if_neg h1, if_pos h2]
    · intro h1 h2 h3
      unfold Pg.createPlayer
      dsimp only
      rw [if_neg h1, if_neg h2, if_pos h3]
    · intro h1 h2 h3
      subst h2
      unfold Pg.createPlayer
      dsimp only
      rw [if_neg h1, if_neg (by norm_num), if_neg (by simp [h3])]
      rfl
  · intro tierFn st pname points
    refine ⟨?_, ?_, ?_, ?_, ?_⟩
    · intro h
      unfold My.createPlayer
      rw [if_pos (by simp [h])]
    · intro h1 h2
      unfold My.createPlayer
      rw [if_neg (by simp [h1])]
      unfold My.AddPlayer
      rw [if_pos h2]
    · intro h1 h2 h3
      unfold My.createPlayer
      rw [if_neg (by simp [h1])]
      unfold My.AddPlayer
      rw [if_neg h2, if_pos h3]
    · intro h1 h2 h3 h4
      unfold My.createPlayer
      rw [if_neg (by simp [h1])]
      unfold My.AddPlayer
      rw [if_neg h2, if_neg h3, if_pos h4]
    · intro h1 h2 h3 h4
      subst h3
      unfold My.createPlayer
      rw [if_neg (by simp [h1])]
      unfold My.AddPlayer
      rw [if_neg h2, if_neg (by norm_num), if_neg (by simp [h4])]
      rfl

/-- C8 (witness): creating "Dana" with omitted points in both empty stores
inserts one row with points 0; creating with an empty name is rejected. -/
theorem c8_player_creation_witness :
    (Pg.createPlayer (fun _ => "t") pgStoreEmpty (some "Dana") none =
      ({ pgStoreEmpty with players := [⟨1, "Dana", 0, "t"⟩] }, Api.ok)) ∧
    (Pg.createPlayer (fun _ => "t") pgStoreEmpty (some " ") none =
      (pgStoreEmpty, Api.err 400 "Player name is required")) ∧
    (My.createPlayer (fun _ => "t") myStoreEmpty (some "Dana") none =
      ({ myStoreEmpty with players :=
        [⟨1, "Dana", 0, "t", 0, 0, true, false, false⟩] }, Api.ok)) := by
  refine ⟨?_, ?_, ?_⟩
  · exact ((c8_player_creation.1 (fun _ => "t") pgStoreEmpty (some "Dana") none).2.2.2
      (by decide) rfl (by decide)).trans (by decide)
  · exact (c8_player_creation.1 (fun _ => "t") pgStoreEmpty (some " ") none).1
      (by decide)
  · exact ((c8_player_creation.2 (fun _ => "t") myStoreEmpty (some "Dana") none).2.2.2.2
      (by decide) (by decide) rfl (by decide)).trans (by decide)

/-- C9 (counterexample): several responses of `src/unnamed/part_001` are not
success/error envelopes — e.g. its leaderboard error branch responds
`{error: "Failed to fetch leaderboard"}` with no `success` field at all, as
does its player-creation validation branch. -/
theorem c9_counterexample : (myResponses "" Json.nul).all envelopeOk = false := by
  decide

/-- C9 (amended): every response body `src/server.js` produces, on every
endpoint, success or failure, is a JSON envelope with a boolean `success`
field, and every failure body additionally carries a string `error` field;
in `src/unnamed/part_001` many error branches omit the `success` field (see
the counterexample). -/
theorem c9_envelope_pg (tok m : String) (d : Option String) (pay : Json) :
    (pgResponses tok m d pay).all envelopeOk = true := by
  cases d <;> rfl

/-- C10 (confirmed): the number of matches the recent-matches endpoint
returns is bounded by the integer parse of the `limit` query parameter when
that parse is a nonzero number, and by the default 10 otherwise; in
particular `limit=0`, a non-numeric limit, and a missing limit are all
served with the effective bound 10, not 0. -/
theorem c10_recent_limit :
    (∀ (s : Pg.Store) (q : Option String) (ms : List Pg.MatchRow),
      Pg.recentMatches s q = some ms →
      (match (match q with | none => none | some str => parseIntJs str) with
       | some n => if n = 0 then ms.length ≤ 10 else (ms.length : Int) ≤ n
       | none => ms.length ≤ 10)) ∧
    (Pg.recentLimit (some "0") = 10 ∧ Pg.recentLimit (some "abc") = 10 ∧
      Pg.recentLimit none = 10) := by
  constructor
  · intro s q ms h
    unfold Pg.recentMatches at h
    dsimp only at h
    by_cases hneg : Pg.recentLimit q < 0
    · rw [if_pos hneg] at h
      exact absurd h (by simp)
    · rw [if_neg hneg] at h
      have hms := (Option.some.inj h).symm
      have hlen : ms.length ≤ (Pg.recentLimit q).toNat := by
        rw [hms, List.length_take]
        exact min_le_left _ _
      cases q with
      | none =>
        simp only [Pg.recentLimit] at hlen
        simpa using hlen
      | some str =>
        cases hp : parseIntJs str with
        | none =>
          dsimp only
          rw [hp]
          simp only [Pg.recentLimit, hp] at hlen
          simpa using hlen
        | some n =>
          dsimp only
          rw [hp]
          dsimp only
          have hl : Pg.recentLimit (some str) = if n = 0 then 10 else n := by
            simp [Pg.recentLimit, hp]
          by_cases hz : n = 0
          · rw [if_pos hz]
            rw [hl, if_pos hz] at hlen
            simpa using hlen
          · rw [if_neg hz]
            rw [hl, if_neg hz] at hlen
            rw [hl, if_neg hz] at hneg
            omega
  · refine ⟨by decide, by decide, rfl⟩

/-- C10 (witness): with three stored matches and `limit=2`, the endpoint
returns the two most recent matches — two rows, within the parsed bound. -/
theorem c10_recent_limit_witness :
    (([⟨1, 2, "g", "g", 1, -1, 9⟩, ⟨1, 2, "g", "g", 1, -1, 5⟩] :
      List Pg.MatchRow).length : Int) ≤ 2 :=
  c10_recent_limit.1 pgStoreF (some "2")
    [⟨1, 2, "g", "g", 1, -1, 9⟩, ⟨1, 2, "g", "g", 1, -1, 5⟩] (by decide)
